import Mathlib

/-!
A verification development for the pingmeter bot (`app/db.py`, `app/handlers.py`).

The PostgreSQL tables `users`, `pings` and `activated_chats` are modelled as
Lean lists kept in insertion order (rows inserted by `INSERT` are appended at
the end; `UPDATE` rewrites rows in place).  `SERIAL` primary keys are modelled
by an explicit `nextPingId` counter.  SQL `ORDER BY key LIMIT 1` is modelled
deterministically: the first row in insertion order among those with the
extremal key is selected.  All database operations from `app/db.py` are
translated as explicit state-passing functions; the one operation that can
raise (the primary-key violation inside `update_temp_user`) returns `Except`.
-/

namespace Pingmeter

/-- A row of the `users` table (`app/db.py`, `_create_tables`).
`created_at` is a bookkeeping default never read by any operation and is
omitted. -/
structure User where
  user_id : Int
  username : Option String
  first_name : Option String
  last_name : Option String
  last_seen_ts : Int
deriving DecidableEq, Repr

/-- A row of the `pings` table (`app/db.py`, `_create_tables`).
`created_at` is omitted as for `User`. -/
structure Ping where
  id : Nat
  chat_id : Int
  source_message_id : Int
  source_user_id : Int
  target_user_id : Int
  ping_reason : String
  ping_ts : Int
  close_ts : Option Int
  close_type : Option String
  close_message_id : Option Int
  reaction_emoji : Option String
deriving DecidableEq, Repr

/-- The database state: the `users` and `pings` tables, the `pings.id`
sequence, and the set of activated chats (`activated_chats.chat_id`;
the remaining columns of `activated_chats` are never read by the
operations under verification). -/
structure DB where
  users : List User
  pings : List Ping
  nextPingId : Nat
  activatedChats : List Int
deriving DecidableEq, Repr

/-- A freshly initialised database (PostgreSQL `SERIAL` starts at 1). -/
def DB.empty : DB := ⟨[], [], 1, []⟩

/-- SQL predicate `chat_id=$1 AND target_user_id=$2 AND close_ts IS NULL`,
shared by `record_ping` and `close_oldest_open_ping_by_message`. -/
def isOpenFor (chat tgt : Int) (p : Ping) : Bool :=
  p.chat_id == chat && p.target_user_id == tgt && p.close_ts == none

/-- The open pings for a `(chat, target)` pair, in insertion order. -/
def openFor (db : DB) (chat tgt : Int) : List Ping :=
  db.pings.filter (isOpenFor chat tgt)

/-- `ORDER BY key ASC LIMIT 1`: first row in insertion order among those with
the minimal key. -/
def selectFirstMinBy (f : α → Int) : List α → Option α
  | [] => none
  | a :: xs =>
    match selectFirstMinBy f xs with
    | none => some a
    | some b => if f b < f a then some b else some a

/-- `ORDER BY key DESC LIMIT 1`: first row in insertion order among those with
the maximal key. -/
def selectFirstMaxBy (f : α → Int) : List α → Option α
  | [] => none
  | a :: xs =>
    match selectFirstMaxBy f xs with
    | none => some a
    | some b => if f a < f b then some b else some a

/-- `Database.record_ping` (`app/db.py`): if an open ping for
`(chat_id, target_user_id)` already exists, return without inserting;
otherwise insert a new open ping row. -/
def record_ping (db : DB) (chat_id source_message_id source_user_id
    target_user_id : Int) (ping_reason : String) (ping_ts : Int) : DB :=
  if (db.pings.find? (isOpenFor chat_id target_user_id)).isSome then db
  else
    { db with
      pings := db.pings ++
        [{ id := db.nextPingId, chat_id := chat_id,
           source_message_id := source_message_id,
           source_user_id := source_user_id,
           target_user_id := target_user_id,
           ping_reason := ping_reason, ping_ts := ping_ts,
           close_ts := none, close_type := none,
           close_message_id := none, reaction_emoji := none }],
      nextPingId := db.nextPingId + 1 }

/-- The row update performed by the `UPDATE pings SET close_ts=$1,
close_type='message', close_message_id=$2 WHERE id=$3` statement. -/
def stampClosedByMessage (qid : Nat) (close_message_id close_ts : Int)
    (p : Ping) : Ping :=
  if p.id == qid then
    { p with close_ts := some close_ts, close_type := some "message",
             close_message_id := some close_message_id }
  else p

/-- `Database.close_oldest_open_ping_by_message` (`app/db.py`): select the
open ping for `(chat_id, target_user_id)` with the smallest `ping_ts`
(`ORDER BY ping_ts ASC LIMIT 1`); if none, return `none` without mutating;
otherwise stamp it closed with kind `message` and return its id. -/
def close_oldest_open_ping_by_message (db : DB) (chat_id target_user_id
    close_message_id close_ts : Int) : Option Nat × DB :=
  match selectFirstMinBy (·.ping_ts)
      (db.pings.filter (isOpenFor chat_id target_user_id)) with
  | none => (none, db)
  | some row =>
    (some row.id,
     { db with
       pings := db.pings.map
         (stampClosedByMessage row.id close_message_id close_ts) })

/-- ASCII lowercasing of one code point, as SQL `lower()` acts on the
ASCII range (Telegram usernames are ASCII `[A-Za-z0-9_]`). -/
def lowerChar (c : Char) : Char :=
  if 65 ≤ c.toNat && c.toNat ≤ 90 then Char.ofNat (c.toNat + 32) else c

/-- ASCII lowercasing of a string (SQL `lower()`). -/
def lowerStr (s : String) : String := ⟨s.data.map lowerChar⟩

/-- SQL predicate `lower(username) = lower($1)` of `resolve_username`
(rows with `username IS NULL` never match). -/
def usernameMatches (u : User) (q : String) : Bool :=
  match u.username with
  | some s => lowerStr s == lowerStr q
  | none => false

/-- `Database.resolve_username` (`app/db.py`): case-insensitive lookup,
most recently seen first (`ORDER BY last_seen_ts DESC LIMIT 1`). -/
def resolve_username (db : DB) (username : String) : Option Int :=
  (selectFirstMaxBy (·.last_seen_ts)
    (db.users.filter (usernameMatches · username))).map (·.user_id)

/-! ### MD5 (RFC 1321), used by `Database._hash_username`

`_hash_username(username)` computes
`int(hashlib.md5(username.encode()).hexdigest()[:8], 16) % (2**31)`:
the first 32 bits of the MD5 digest, read as a big-endian hex prefix,
reduced modulo `2^31`.  The digest is computed over the UTF-8 bytes of
the username.  Machine words are `Nat`s reduced modulo `2^32`. -/

/-- UTF-8 encoding of one code point (`str.encode()` in Python). -/
def utf8Bytes (c : Nat) : List Nat :=
  if c < 0x80 then [c]
  else if c < 0x800 then
    [0xC0 ||| (c >>> 6), 0x80 ||| (c &&& 0x3F)]
  else if c < 0x10000 then
    [0xE0 ||| (c >>> 12), 0x80 ||| ((c >>> 6) &&& 0x3F), 0x80 ||| (c &&& 0x3F)]
  else
    [0xF0 ||| (c >>> 18), 0x80 ||| ((c >>> 12) &&& 0x3F),
     0x80 ||| ((c >>> 6) &&& 0x3F), 0x80 ||| (c &&& 0x3F)]

/-- UTF-8 bytes of a string (`username.encode()`). -/
def strBytes (s : String) : List Nat :=
  (s.data.map (fun ch => utf8Bytes ch.toNat)).flatten

/-- MD5 per-round left-rotation amounts. -/
def md5S : List Nat :=
  [7, 12, 17, 22, 7, 12, 17, 22, 7, 12, 17, 22, 7, 12, 17, 22,
   5,  9, 14, 20, 5,  9, 14, 20, 5,  9, 14, 20, 5,  9, 14, 20,
   4, 11, 16, 23, 4, 11, 16, 23, 4, 11, 16, 23, 4, 11, 16, 23,
   6, 10, 15, 21, 6, 10, 15, 21, 6, 10, 15, 21, 6, 10, 15, 21]

/-- MD5 sine-derived additive constants. -/
def md5K : List Nat :=
  [0xd76aa478, 0xe8c7b756, 0x242070db, 0xc1bdceee,
   0xf57c0faf, 0x4787c62a, 0xa8304613, 0xfd469501,
   0x698098d8, 0x8b44f7af, 0xffff5bb1, 0x895cd7be,
   0x6b901122, 0xfd987193, 0xa679438e, 0x49b40821,
   0xf61e2562, 0xc040b340, 0x265e5a51, 0xe9b6c7aa,
   0xd62f105d, 0x02441453, 0xd8a1e681, 0xe7d3fbc8,
   0x21e1cde6, 0xc33707d6, 0xf4d50d87, 0x455a14ed,
   0xa9e3e905, 0xfcefa3f8, 0x676f02d9, 0x8d2a4c8a,
   0xfffa3942, 0x8771f681, 0x6d9d6122, 0xfde5380c,
   0xa4beea44, 0x4bdecfa9, 0xf6bb4b60, 0xbebfbc70,
   0x289b7ec6, 0xeaa127fa, 0xd4ef3085, 0x04881d05,
   0xd9d4d039, 0xe6db99e5, 0x1fa27cf8, 0xc4ac5665,
   0xf4292244, 0x432aff97, 0xab9423a7, 0xfc93a039,
   0x655b59c3, 0x8f0ccc92, 0xffeff47d, 0x85845dd1,
   0x6fa87e4f, 0xfe2ce6e0, 0xa3014314, 0x4e0811a1,
   0xf7537e82, 0xbd3af235, 0x2ad7d2bb, 0xeb86d391]

/-- 32-bit left rotation. -/
def rotl32 (x s : Nat) : Nat :=
  ((x <<< s) ||| (x >>> (32 - s))) % 4294967296

/-- 32-bit bitwise complement. -/
def not32 (x : Nat) : Nat := 4294967295 ^^^ x

/-- MD5 padding: a `0x80` byte, zeros to 56 mod 64, then the bit length
as a 64-bit little-endian quantity. -/
def md5Pad (msg : List Nat) : List Nat :=
  let len := msg.length
  let padLen := (119 - len % 64) % 64 + 1
  let bitLen := (len * 8) % 18446744073709551616
  msg ++ (0x80 :: List.replicate (padLen - 1) 0) ++
    (List.range 8).map (fun i => (bitLen >>> (8 * i)) % 256)

/-- The 16 little-endian 32-bit words of one 64-byte block. -/
def md5Words (block : List Nat) : List Nat :=
  (List.range 16).map (fun j =>
    block.getD (4 * j) 0 + 256 * block.getD (4 * j + 1) 0 +
    65536 * block.getD (4 * j + 2) 0 + 16777216 * block.getD (4 * j + 3) 0)

/-- One MD5 compression round `i` over the running state `(A, B, C, D)`. -/
def md5Round (m : List Nat) (st : Nat × Nat × Nat × Nat) (i : Nat) :
    Nat × Nat × Nat × Nat :=
  let (a, b, c, d) := st
  let f :=
    if i < 16 then (b &&& c) ||| (not32 b &&& d)
    else if i < 32 then (d &&& b) ||| (not32 d &&& c)
    else if i < 48 then b ^^^ c ^^^ d
    else c ^^^ (b ||| not32 d)
  let g :=
    if i < 16 then i
    else if i < 32 then (5 * i + 1) % 16
    else if i < 48 then (3 * i + 5) % 16
    else (7 * i) % 16
  let f2 := (f + a + md5K.getD i 0 + m.getD g 0) % 4294967296
  (d, (b + rotl32 f2 (md5S.getD i 0)) % 4294967296, b, c)

/-- MD5 compression of one 64-byte block into the chaining state. -/
def md5Block (st : Nat × Nat × Nat × Nat) (block : List Nat) :
    Nat × Nat × Nat × Nat :=
  let m := md5Words block
  let (a, b, c, d) := (List.range 64).foldl (md5Round m) st
  ((st.1 + a) % 4294967296, (st.2.1 + b) % 4294967296,
   (st.2.2.1 + c) % 4294967296, (st.2.2.2 + d) % 4294967296)

/-- Fold the compression function over consecutive 64-byte blocks; the fuel
argument counts the remaining blocks. -/
def md5Chunks : Nat → List Nat → Nat × Nat × Nat × Nat → Nat × Nat × Nat × Nat
  | 0, _, st => st
  | n + 1, l, st => md5Chunks n (l.drop 64) (md5Block st (l.take 64))

/-- The four 32-bit MD5 state words of a byte string. -/
def md5State (msg : List Nat) : Nat × Nat × Nat × Nat :=
  let padded := md5Pad msg
  md5Chunks (padded.length / 64) padded
    (0x67452301, 0xefcdab89, 0x98badcfe, 0x10325476)

/-- Byte swap of a 32-bit word.  The MD5 hex digest serialises the first
state word little-endian, so the first eight hex digits read big-endian
are the byte-swapped first state word. -/
def byteSwap32 (x : Nat) : Nat :=
  (x % 256) * 16777216 + ((x >>> 8) % 256) * 65536 +
  ((x >>> 16) % 256) * 256 + ((x >>> 24) % 256)

/-- `int(hashlib.md5(bytes).hexdigest()[:8], 16)`. -/
def md5Prefix32 (msg : List Nat) : Nat := byteSwap32 (md5State msg).1

/-- `Database._hash_username` (`app/db.py`):
`int(md5(username.encode()).hexdigest()[:8], 16) % (2**31)`.
(The `lru_cache` wrapper only memoises this pure function.) -/
def hash_username (username : String) : Nat :=
  md5Prefix32 (strBytes username) % 2147483648

/-- The provisional ("temporary") user id derived for a handle by
`create_temp_user_by_username`: `-self._hash_username(username)`. -/
def tempUserIdOf (username : String) : Int :=
  -(hash_username username : Int)

/-- `Database.upsert_user` (`app/db.py`): `INSERT ... ON CONFLICT (user_id)
DO UPDATE SET username, first_name, last_name, last_seen_ts`. -/
def upsert_user (db : DB) (user_id : Int) (username first_name last_name :
    Option String) (now : Int) : DB :=
  if db.users.any (·.user_id == user_id) then
    { db with
      users := db.users.map (fun u =>
        if u.user_id == user_id then
          { u with username := username, first_name := first_name,
                   last_name := last_name, last_seen_ts := now }
        else u) }
  else
    { db with
      users := db.users ++
        [{ user_id := user_id, username := username,
           first_name := first_name, last_name := last_name,
           last_seen_ts := now }] }

/-- `Database.create_temp_user_by_username` (`app/db.py`): derive the
temporary (provisional) id `-_hash_username(username)` and upsert a user
row for it (`ON CONFLICT (user_id) DO UPDATE SET username, last_seen_ts`).
The wall-clock `int(time.time())` is passed in as `now`. -/
def create_temp_user_by_username (db : DB) (username : String) (now : Int) :
    Int × DB :=
  let temp_user_id := tempUserIdOf username
  if db.users.any (·.user_id == temp_user_id) then
    (temp_user_id,
     { db with
       users := db.users.map (fun u =>
         if u.user_id == temp_user_id then
           { u with username := some username, last_seen_ts := now }
         else u) })
  else
    (temp_user_id,
     { db with
       users := db.users ++
         [{ user_id := temp_user_id, username := some username,
            first_name := none, last_name := none, last_seen_ts := now }] })

/-- The handle-resolution composite of the dispatcher
(`app/handlers.py`, `on_message`, mention branch):
`target_user_id = await db.resolve_username(username)` followed by
`if not target_user_id: target_user_id = await
db.create_temp_user_by_username(username)`.  Python truthiness: a resolved
id of `0` also falls through to provisional creation. -/
def resolveOrCreateProvisional (db : DB) (username : String) (now : Int) :
    Int × DB :=
  match resolve_username db username with
  | some uid => if uid == 0 then create_temp_user_by_username db username now
                else (uid, db)
  | none => create_temp_user_by_username db username now

/-- `Database.update_temp_user` (`app/db.py`): find a temporary user by
exact username match (`username = $1 AND user_id < 0`); if found, rewrite
the user row to the real id and repoint every ping's `target_user_id` from
the temporary id to the real one.  The `UPDATE users SET user_id = ...`
raises a primary-key violation when a distinct row with `real_user_id`
already exists; the statement then fails before mutating anything, the
exception propagates, and the second `UPDATE` never runs — modelled as
`Except.error` with the state unchanged. -/
def update_temp_user (db : DB) (username : String) (real_user_id : Int)
    (first_name last_name : Option String) (now : Int) : Except Unit DB :=
  match db.users.find? (fun u =>
      u.username == some username && u.user_id < 0) with
  | none => .ok db
  | some temp =>
    if db.users.any (fun u =>
        u.user_id == real_user_id && u.user_id != temp.user_id) then
      .error ()
    else
      .ok { db with
        users := db.users.map (fun u =>
          if u.user_id == temp.user_id then
            { u with user_id := real_user_id, first_name := first_name,
                     last_name := last_name, last_seen_ts := now }
          else u),
        pings := db.pings.map (fun p =>
          if p.target_user_id == temp.user_id then
            { p with target_user_id := real_user_id }
          else p) }

/-! ### StatsEngine: `get_top` -/

/-- SQL predicate `chat_id = $1 AND close_ts IS NOT NULL`. -/
def isClosedIn (chat : Int) (p : Ping) : Bool :=
  p.chat_id == chat && p.close_ts.isSome

/-- The closed duration `close_ts - ping_ts` of a resolved ping. -/
def closedDuration (p : Ping) : Int := p.close_ts.getD 0 - p.ping_ts

/-- The display name column of `get_top`:
`row['username'] or f'user_{row["target_user_id"]}'` over the
`LEFT JOIN users u ON p.target_user_id = u.user_id` (the join key is the
`users` primary key, so at most one row matches).  Python `or` replaces
both a missing/NULL username and the empty string. -/
def displayNameFor (db : DB) (t : Int) : String :=
  match (db.users.find? (·.user_id == t)).bind (·.username) with
  | some s => if s = "" then "user_" ++ toString t else s
  | none => "user_" ++ toString t

/-- One aggregate row of `get_top` for target `t`: `COUNT(*)`,
`AVG(close_ts - ping_ts)` (exact rational arithmetic, as PostgreSQL
`AVG(bigint)` returns exact `numeric`; the quotient is carried in
normalized form, `mkRat sum count = sum / count`), and the display
name. -/
def topRowFor (db : DB) (chat t : Int) : Int × Nat × ℚ × String :=
  let mine := (db.pings.filter (isClosedIn chat)).filter
    (·.target_user_id == t)
  (t, mine.length, mkRat (mine.map closedDuration).sum mine.length,
   displayNameFor db t)

/-- The `ORDER BY avg_sec {order}` comparison: ascending when
`order = "ASC"` (`asc = true`), descending for `"DESC"`. -/
def topLE (asc : Bool) (a b : Int × Nat × ℚ × String) : Bool :=
  if asc then decide (a.2.2.1 ≤ b.2.2.1) else decide (b.2.2.1 ≤ a.2.2.1)

/-- Insert an element into a sorted list, before the first position whose
element it `le`-precedes (a stable model of SQL `ORDER BY`). -/
def insertSorted (le : α → α → Bool) (x : α) : List α → List α
  | [] => [x]
  | y :: ys => if le x y then x :: y :: ys else y :: insertSorted le x ys

/-- Stable insertion sort: the deterministic model of SQL `ORDER BY`
(rows with equal keys keep their previous relative order). -/
def insertionSort (le : α → α → Bool) : List α → List α
  | [] => []
  | x :: xs => insertSorted le x (insertionSort le xs)

/-- `Database.get_top` (`app/db.py`): group the closed pings of the chat by
target (`GROUP BY p.target_user_id, u.username` — the join key being the
`users` primary key, the username is a function of the target, so the
groups are exactly the targets; `HAVING COUNT(*) >= 1` holds for every
group), order by average duration, truncate to `limit`. -/
def get_top (db : DB) (chat_id : Int) (limit : Nat) (asc : Bool) :
    List (Int × Nat × ℚ × String) :=
  let targets := ((db.pings.filter (isClosedIn chat_id)).map
    (·.target_user_id)).dedup
  (insertionSort (topLE asc) (targets.map (topRowFor db chat_id))).take limit

/-! ### Conversation teardown: `deactivate_chat` -/

/-- `Database.deactivate_chat` (`app/db.py`): if the chat is not activated,
return `false` unchanged.  Otherwise, inside one transaction: (1) delete
the chat's pings; (2) select the users that appeared as source or target
in the chat's pings and participate in no ping at all — this query runs
after the delete of step (1) and therefore reads the already-mutated
`pings` table; (3) delete those users; (4) delete the activation row. -/
def deactivate_chat (db : DB) (chat_id : Int) : Bool × DB :=
  if db.activatedChats.contains chat_id then
    let pings1 := db.pings.filter (fun p => p.chat_id != chat_id)
    let idsInChat :=
      ((pings1.filter (fun p => p.chat_id == chat_id)).map
        (·.source_user_id)) ++
      ((pings1.filter (fun p => p.chat_id == chat_id)).map
        (·.target_user_id))
    let usersToDelete := db.users.filter (fun u =>
      idsInChat.contains u.user_id &&
      pings1.all (fun p =>
        p.source_user_id != u.user_id && p.target_user_id != u.user_id))
    (true,
     { db with
       pings := pings1,
       users := db.users.filter (fun u => !usersToDelete.contains u),
       activatedChats := db.activatedChats.filter (fun c => c != chat_id) })
  else (false, db)

/-! ### EventDispatcher: the aiogram handlers of `app/handlers.py`

Only `on_message` (registered for `F.text | F.caption`) and `on_reply`
(registered for `F.reply_to_message`) touch the ping ledger.  No
`message_reaction` handler is registered anywhere, so reaction updates
are dropped by the router.  aiogram dispatches a message to the first
matching handler in registration order. -/

/-- A message entity as consumed by the mention loop of `on_message`.
`textMention` carries `ent.user.id` and `ent.user.is_bot`; `mention`
carries the `@`-stripped username sliced from the message text. -/
inductive Entity where
  | textMention (uid : Int) (isBot : Bool)
  | mention (username : String)
deriving DecidableEq, Repr

/-- The fields of an inbound aiogram `Message` read by the handlers.
`isCommand` is `message.text.startswith('/')`; `date` is
`int(message.date.timestamp())`. -/
structure Msg where
  chat_id : Int
  message_id : Int
  from_id : Int
  from_isBot : Bool
  from_username : Option String
  from_first : Option String
  from_last : Option String
  hasTextOrCaption : Bool
  isReply : Bool
  isCommand : Bool
  entities : List Entity
  date : Int
deriving DecidableEq, Repr

/-- A normalized inbound transport update: a message, or a reaction
(for which the bot registers no handler). -/
inductive Event where
  | message (m : Msg)
  | reaction (chat_id from_id reacted_message_id : Int) (glyph : String)
      (at_ts : Int)
deriving DecidableEq, Repr

/-- Python truthiness of the optional `bot_id`. -/
def truthyOpt : Option Int → Bool
  | none => false
  | some v => v != 0

/-- The author gate of both handlers:
`message.from_user and not message.from_user.is_bot and
(not bot_id or message.from_user.id != bot_id)`. -/
def authorPasses (botId : Option Int) (m : Msg) : Bool :=
  !m.from_isBot && (!truthyOpt botId || m.from_id != botId.getD 0)

/-- The author-registration block of `on_message`: `update_temp_user`
(only when the author has a username) followed by `upsert_user`.
An exception from `update_temp_user` aborts the handler. -/
def registerAuthor (db : DB) (m : Msg) : Except Unit DB :=
  match m.from_username with
  | some un => do
    let db1 ← update_temp_user db un m.from_id m.from_first m.from_last m.date
    pure (upsert_user db1 m.from_id m.from_username m.from_first
      m.from_last m.date)
  | none =>
    pure (upsert_user db m.from_id m.from_username m.from_first
      m.from_last m.date)

/-- One iteration of the entity loop of `on_message`. -/
def processEntity (db : DB) (botId : Option Int) (m : Msg) (e : Entity) :
    DB :=
  let is_text_mention := match e with
    | .textMention _ isBot => !isBot
    | .mention _ => false
  let is_mention := match e with
    | .mention _ => true
    | .textMention _ _ => false
  let is_not_bot := match e with
    | .mention _ => true
    | .textMention uid _ => !truthyOpt botId || uid != botId.getD 0
  if (is_text_mention || is_mention) && is_not_bot then
    let td : Option Int × DB := match e with
      | .textMention uid _ => (some uid, db)
      | .mention un =>
        let r := resolveOrCreateProvisional db un m.date
        (some r.1, r.2)
    match td.1 with
    | some target =>
      if target != 0 && target != m.from_id then
        record_ping td.2 m.chat_id m.message_id m.from_id target
          (match e with
           | .textMention _ _ => "text_mention"
           | .mention _ => "mention")
          m.date
      else td.2
    | none => td.2
  else db

/-- `on_message` (`app/handlers.py`): skip commands and non-activated
chats; register the author (a raised storage exception aborts the handler
with earlier statements already committed); process mention entities;
finally close the oldest open ping of the author by message. -/
def on_message (db : DB) (botId : Option Int) (m : Msg) : DB :=
  if m.isCommand then db
  else if !db.activatedChats.contains m.chat_id then db
  else
    match (if authorPasses botId m then registerAuthor db m
           else .ok db) with
    | .error _ => db
    | .ok db1 =>
      let db2 := m.entities.foldl (fun s e => processEntity s botId m e) db1
      if authorPasses botId m then
        (close_oldest_open_ping_by_message db2 m.chat_id m.from_id
          m.message_id m.date).2
      else db2

/-- `on_reply` (`app/handlers.py`): in an activated chat, close the oldest
open ping of the author by message. -/
def on_reply (db : DB) (botId : Option Int) (m : Msg) : DB :=
  if !db.activatedChats.contains m.chat_id then db
  else if authorPasses botId m then
    (close_oldest_open_ping_by_message db m.chat_id m.from_id
      m.message_id m.date).2
  else db

/-- The router dispatch restricted to the ledger-touching handlers: a
message with text or caption goes to `on_message`; otherwise a reply
goes to `on_reply`; any other message, and every reaction update,
matches no registered handler and leaves the state untouched.  Command
messages are consumed by the separate command handlers (`cmd_*` in
`app/handlers.py`), which are outside this embedding; `on_message`
itself returns without touching the store on a command, and every
theorem below about message dispatch assumes `isCommand = false`. -/
def dispatch (db : DB) (botId : Option Int) : Event → DB
  | .message m =>
    if m.hasTextOrCaption then on_message db botId m
    else if m.isReply then on_reply db botId m
    else db
  | .reaction _ _ _ _ _ => db

/-! ### Sequences of `open` calls (for Invariant A) -/

/-- The argument tuple of one `record_ping` call. -/
structure OpenArgs where
  chat_id : Int
  source_message_id : Int
  source_user_id : Int
  target_user_id : Int
  ping_reason : String
  ping_ts : Int
deriving DecidableEq, Repr

/-- Apply a sequence of `open` (`record_ping`) calls in order. -/
def applyOpens (db : DB) (calls : List OpenArgs) : DB :=
  calls.foldl (fun s a =>
    record_ping s a.chat_id a.source_message_id a.source_user_id
      a.target_user_id a.ping_reason a.ping_ts) db

/-! ### Concrete example states used by witnesses and counterexamples -/

/-- An open ping row: chat 1, message 10, source 2, target 5, opened at 100. -/
def pingOpen1 : Ping :=
  { id := 1, chat_id := 1, source_message_id := 10, source_user_id := 2,
    target_user_id := 5, ping_reason := "mention", ping_ts := 100,
    close_ts := none, close_type := none, close_message_id := none,
    reaction_emoji := none }

/-- A closed ping row for the same pair, opened at 50 and closed at 70. -/
def pingClosed2 : Ping :=
  { id := 2, chat_id := 1, source_message_id := 11, source_user_id := 3,
    target_user_id := 5, ping_reason := "mention", ping_ts := 50,
    close_ts := some 70, close_type := some "message",
    close_message_id := some 12, reaction_emoji := none }

/-- A ledger for chat 1 holding one open and one closed obligation for
target 5. -/
def dbTwoPings : DB :=
  { users := [], pings := [pingOpen1, pingClosed2], nextPingId := 3,
    activatedChats := [1] }

/-- A text message sent by participant 5 (username "eve") into chat 1,
mentioning `@bob` (no command). -/
def msgFromTarget5 : Msg :=
  { chat_id := 1, message_id := 20, from_id := 5, from_isBot := false,
    from_username := some "eve", from_first := none, from_last := none,
    hasTextOrCaption := true, isReply := false, isCommand := false,
    entities := [Entity.mention "bob"], date := 200 }

/-- A caption-less reply (no text, no caption) sent by participant 5 into
chat 1. -/
def msgReplyFromTarget5 : Msg :=
  { chat_id := 1, message_id := 21, from_id := 5, from_isBot := false,
    from_username := none, from_first := none, from_last := none,
    hasTextOrCaption := false, isReply := true, isCommand := false,
    entities := [], date := 210 }

/-- `dbTwoPings` after `on_message` registers the author of
`msgFromTarget5` (no temporary "eve" exists, so `update_temp_user` is a
no-op and `upsert_user` inserts the author row). -/
def dbAfterRegister : DB :=
  upsert_user dbTwoPings 5 (some "eve") none none 200

/-- The provisional id derived for the never-seen handle "alice". -/
def pAlice : Int := (resolveOrCreateProvisional DB.empty "alice" 100).1

/-- The store after provisional creation for "alice". -/
def dbAlice : DB := (resolveOrCreateProvisional DB.empty "alice" 100).2

/-- `dbAlice` after opening an obligation against the provisional "alice"
participant in chat 1. -/
def dbAlicePing : DB := record_ping dbAlice 1 10 2 pAlice "mention" 100

/-- The provisional user row of `dbAlicePing`. -/
def tempAlice : User :=
  { user_id := tempUserIdOf "alice", username := some "alice",
    first_name := none, last_name := none, last_seen_ts := 100 }

/-- An activated chat 1 with one closed obligation (source 2, target 3)
and the two participant records; neither participant occurs in any other
conversation. -/
def dbC8 : DB :=
  { users := [{ user_id := 2, username := some "bob", first_name := none,
                last_name := none, last_seen_ts := 100 },
              { user_id := 3, username := some "carol", first_name := none,
                last_name := none, last_seen_ts := 110 }],
    pings := [{ id := 1, chat_id := 1, source_message_id := 10,
                source_user_id := 2, target_user_id := 3,
                ping_reason := "mention", ping_ts := 100,
                close_ts := some 150, close_type := some "message",
                close_message_id := some 11, reaction_emoji := none }],
    nextPingId := 2, activatedChats := [1] }

/-- Chat 1 with three participants (5, 6, 7) having one closed obligation
each, of durations 10, 20 and 30 seconds respectively. -/
def dbTop : DB :=
  { users := [],
    pings := [{ id := 1, chat_id := 1, source_message_id := 10,
                source_user_id := 2, target_user_id := 5,
                ping_reason := "mention", ping_ts := 100,
                close_ts := some 110, close_type := some "message",
                close_message_id := some 11, reaction_emoji := none },
              { id := 2, chat_id := 1, source_message_id := 12,
                source_user_id := 2, target_user_id := 6,
                ping_reason := "mention", ping_ts := 100,
                close_ts := some 120, close_type := some "message",
                close_message_id := some 13, reaction_emoji := none },
              { id := 3, chat_id := 1, source_message_id := 14,
                source_user_id := 2, target_user_id := 7,
                ping_reason := "mention", ping_ts := 100,
                close_ts := some 130, close_type := some "message",
                close_message_id := some 15, reaction_emoji := none }],
    nextPingId := 4, activatedChats := [1] }

/-! ## Helper lemmas -/

/-- Invariant A as a state predicate: at most one open ping per
`(conversation, target)` pair. -/
def invA (db : DB) : Prop :=
  ∀ c t : Int, (openFor db c t).length ≤ 1

theorem record_ping_of_open (db : DB) (c m s t : Int) (r : String)
    (ts : Int) (h : openFor db c t ≠ []) :
    record_ping db c m s t r ts = db := by
  unfold record_ping
  rw [if_pos]
  rw [List.find?_isSome]
  rcases List.exists_mem_of_ne_nil _ h with ⟨p, hp⟩
  unfold openFor at hp
  rw [List.mem_filter] at hp
  exact ⟨p, hp.1, hp.2⟩

theorem invA_record_ping (db : DB) (hdb : invA db) (c m s t : Int)
    (r : String) (ts : Int) : invA (record_ping db c m s t r ts) := by
  intro c2 t2
  unfold record_ping
  split
  · exact hdb c2 t2
  · rename_i hfind
    unfold openFor
    simp only [List.filter_append]
    rw [List.length_append]
    by_cases hct : c2 = c ∧ t2 = t
    · obtain ⟨hc, ht⟩ := hct
      subst hc; subst ht
      have hnone : db.pings.find? (isOpenFor c2 t2) = none := by
        cases hfe : db.pings.find? (isOpenFor c2 t2) with
        | none => rfl
        | some v => exact absurd (by rw [hfe]; rfl) hfind
      rw [List.find?_eq_none] at hnone
      have : db.pings.filter (isOpenFor c2 t2) = [] :=
        List.filter_eq_nil_iff.mpr hnone
      rw [this]
      simp [List.filter, isOpenFor]
    · have : isOpenFor c2 t2
          { id := db.nextPingId, chat_id := c, source_message_id := m,
            source_user_id := s, target_user_id := t, ping_reason := r,
            ping_ts := ts, close_ts := none, close_type := none,
            close_message_id := none, reaction_emoji := none } = false := by
        unfold isOpenFor
        simp only [Bool.and_eq_false_iff]
        rcases not_and_or.mp hct with hc | ht
        · left; left
          simpa [beq_iff_eq] using fun hh => hc hh.symm
        · left; right
          simpa [beq_iff_eq] using fun hh => ht hh.symm
      rw [List.filter_cons, this]
      simpa using hdb c2 t2

theorem invA_applyOpens (db : DB) (hdb : invA db) (calls : List OpenArgs) :
    invA (applyOpens db calls) := by
  induction calls generalizing db with
  | nil => exact hdb
  | cons a rest ih =>
    exact ih _ (invA_record_ping db hdb a.chat_id a.source_message_id
      a.source_user_id a.target_user_id a.ping_reason a.ping_ts)

theorem invA_empty : invA DB.empty := by
  intro c t
  simp [openFor, DB.empty]

theorem selectFirstMinBy_spec (f : α → Int) (l : List α) (hne : l ≠ []) :
    ∃ x l1 l2, selectFirstMinBy f l = some x ∧ l = l1 ++ x :: l2 ∧
      (∀ y ∈ l, f x ≤ f y) ∧ (∀ y ∈ l1, f x < f y) := by
  induction l with
  | nil => exact absurd rfl hne
  | cons a xs ih =>
    by_cases hxs : xs = []
    · subst hxs
      exact ⟨a, [], [], by simp [selectFirstMinBy], rfl, by simp, by simp⟩
    · obtain ⟨b, l1, l2, hsel, hdec, hmin, hstrict⟩ := ih hxs
      by_cases hlt : f b < f a
      · refine ⟨b, a :: l1, l2, ?_, by rw [hdec]; rfl, ?_, ?_⟩
        · simp only [selectFirstMinBy, hsel]
          rw [if_pos hlt]
        · intro y hy
          rcases List.mem_cons.mp hy with h | h
          · exact le_of_lt (h ▸ hlt)
          · exact hmin y h
        · intro y hy
          rcases List.mem_cons.mp hy with h | h
          · exact h ▸ hlt
          · exact hstrict y h
      · push_neg at hlt
        refine ⟨a, [], xs, ?_, rfl, ?_, by simp⟩
        · simp only [selectFirstMinBy, hsel]
          rw [if_neg (not_lt.mpr hlt)]
        · intro y hy
          rcases List.mem_cons.mp hy with h | h
          · exact h ▸ le_refl _
          · exact le_trans hlt (hmin y h)

theorem selectFirstMinBy_nil_iff (f : α → Int) (l : List α) :
    selectFirstMinBy f l = none ↔ l = [] := by
  cases l with
  | nil => simp [selectFirstMinBy]
  | cons a xs =>
    simp only [selectFirstMinBy]
    cases selectFirstMinBy f xs <;> simp
    split <;> simp

theorem selectFirstMinBy_mem (f : α → Int) (l : List α) (x : α)
    (h : selectFirstMinBy f l = some x) : x ∈ l := by
  induction l with
  | nil => simp [selectFirstMinBy] at h
  | cons a xs ih =>
    cases hxs : selectFirstMinBy f xs with
    | none =>
      simp only [selectFirstMinBy, hxs, Option.some.injEq] at h
      subst h
      exact List.mem_cons_self _ _
    | some b =>
      simp only [selectFirstMinBy, hxs] at h
      by_cases hlt : f b < f a
      · rw [if_pos hlt, Option.some.injEq] at h
        exact List.mem_cons_of_mem _ (ih (by rw [hxs, h]))
      · rw [if_neg hlt, Option.some.injEq] at h
        subst h
        exact List.mem_cons_self _ _

theorem filter_map_invariant (f : α → α) (p : α → Bool) (l : List α)
    (hpres : ∀ x, p (f x) = p x)
    (hid : ∀ x ∈ l, p x = true → f x = x) :
    (l.map f).filter p = l.filter p := by
  induction l with
  | nil => rfl
  | cons a xs ih =>
    simp only [List.map_cons, List.filter_cons]
    cases hp : p a with
    | true =>
      rw [hpres a, hp, hid a (List.mem_cons_self _ _) hp]
      simp only [ih (fun x hx => hid x (List.mem_cons_of_mem _ hx))]
    | false =>
      rw [hpres a, hp]
      exact ih fun x hx => hid x (List.mem_cons_of_mem _ hx)

theorem selectFirstMaxBy_none_iff (f : α → Int) (l : List α) :
    selectFirstMaxBy f l = none ↔ l = [] := by
  cases l with
  | nil => simp [selectFirstMaxBy]
  | cons a xs =>
    simp only [selectFirstMaxBy]
    cases selectFirstMaxBy f xs <;> simp
    split <;> simp

theorem selectFirstMaxBy_spec (f : α → Int) (l : List α) (hne : l ≠ []) :
    ∃ x, selectFirstMaxBy f l = some x ∧ x ∈ l ∧ ∀ y ∈ l, f y ≤ f x := by
  induction l with
  | nil => exact absurd rfl hne
  | cons a xs ih =>
    by_cases hxs : xs = []
    · subst hxs
      exact ⟨a, by simp [selectFirstMaxBy], List.mem_cons_self _ _, by simp⟩
    · obtain ⟨b, hsel, hbmem, hmax⟩ := ih hxs
      by_cases hlt : f a < f b
      · refine ⟨b, ?_, List.mem_cons_of_mem _ hbmem, ?_⟩
        · simp only [selectFirstMaxBy, hsel]
          rw [if_pos hlt]
        · intro y hy
          rcases List.mem_cons.mp hy with h | h
          · exact le_of_lt (h ▸ hlt)
          · exact hmax y h
      · push_neg at hlt
        refine ⟨a, ?_, List.mem_cons_self _ _, ?_⟩
        · simp only [selectFirstMaxBy, hsel]
          rw [if_neg (not_lt.mpr hlt)]
        · intro y hy
          rcases List.mem_cons.mp hy with h | h
          · exact h ▸ le_refl _
          · exact le_trans (hmax y h) hlt

theorem resolve_none_of_no_match (db : DB) (h : String)
    (hall : ∀ u ∈ db.users, usernameMatches u h = false) :
    resolve_username db h = none := by
  unfold resolve_username
  rw [Option.map_eq_none']
  rw [selectFirstMaxBy_none_iff]
  rw [List.filter_eq_nil_iff]
  intro u hu
  simp [hall u hu]

/-- Characterization of `close_oldest_open_ping_by_message`, shared by the
claims about the ledger close path. -/
theorem close_oldest_char (db : DB) (chat tgt cmid cts : Int) :
    (openFor db chat tgt = [] →
      close_oldest_open_ping_by_message db chat tgt cmid cts = (none, db)) ∧
    (openFor db chat tgt ≠ [] →
      ∃ q l1 l2,
        openFor db chat tgt = l1 ++ q :: l2 ∧
        (∀ p ∈ openFor db chat tgt, q.ping_ts ≤ p.ping_ts) ∧
        (∀ p ∈ l1, q.ping_ts < p.ping_ts) ∧
        (close_oldest_open_ping_by_message db chat tgt cmid cts).1
          = some q.id ∧
        { q with close_ts := some cts, close_type := some "message",
                 close_message_id := some cmid }
          ∈ (close_oldest_open_ping_by_message db chat tgt cmid cts).2.pings ∧
        (∀ p ∈ db.pings, p.id ≠ q.id →
          p ∈ (close_oldest_open_ping_by_message db chat tgt cmid cts).2.pings) ∧
        (close_oldest_open_ping_by_message db chat tgt cmid cts).2.pings
          = db.pings.map (stampClosedByMessage q.id cmid cts)) := by
  constructor
  · intro hnil
    unfold close_oldest_open_ping_by_message
    have : db.pings.filter (isOpenFor chat tgt) = [] := hnil
    rw [this]
    rfl
  · intro hne
    obtain ⟨q, l1, l2, hsel, hdec, hmin, hstrict⟩ :=
      selectFirstMinBy_spec (·.ping_ts) (openFor db chat tgt) hne
    have hq_mem : q ∈ openFor db chat tgt := by
      rw [hdec]; exact List.mem_append_right _ (List.mem_cons_self _ _)
    have hq_pings : q ∈ db.pings := (List.mem_filter.mp hq_mem).1
    have hclose : close_oldest_open_ping_by_message db chat tgt cmid cts =
        (some q.id,
         { db with
           pings := db.pings.map (stampClosedByMessage q.id cmid cts) }) := by
      unfold close_oldest_open_ping_by_message
      have : db.pings.filter (isOpenFor chat tgt)
          = openFor db chat tgt := rfl
      rw [this, hsel]
    refine ⟨q, l1, l2, hdec, hmin, hstrict, by rw [hclose], ?_, ?_, by rw [hclose]⟩
    · rw [hclose]
      have : stampClosedByMessage q.id cmid cts q
          = { q with close_ts := some cts, close_type := some "message",
                     close_message_id := some cmid } := by
        unfold stampClosedByMessage
        rw [if_pos (beq_self_eq_true _)]
      exact this ▸ List.mem_map_of_mem _ hq_pings
    · intro p hp hne2
      rw [hclose]
      have : stampClosedByMessage q.id cmid cts p = p := by
        unfold stampClosedByMessage
        rw [if_neg]
        simpa [beq_iff_eq] using hne2
      exact this ▸ List.mem_map_of_mem _ hp

/-- `upsert_user` touches only the `users` table. -/
theorem upsert_user_pings (db : DB) (uid : Int) (un fn ln : Option String)
    (now : Int) : (upsert_user db uid un fn ln now).pings = db.pings := by
  unfold upsert_user
  split <;> rfl

/-- `create_temp_user_by_username` touches only the `users` table. -/
theorem create_temp_pings (db : DB) (un : String) (now : Int) :
    (create_temp_user_by_username db un now).2.pings = db.pings := by
  simp only [create_temp_user_by_username]
  split <;> rfl

/-- The resolve-or-create composite touches only the `users` table. -/
theorem roc_pings (db : DB) (un : String) (now : Int) :
    (resolveOrCreateProvisional db un now).2.pings = db.pings := by
  unfold resolveOrCreateProvisional
  cases hres : resolve_username db un with
  | none =>
    simp only [hres]
    exact create_temp_pings db un now
  | some uid =>
    simp only [hres]
    split
    · exact create_temp_pings db un now
    · rfl

/-- `record_ping` against one target leaves the open obligations of any
other target unchanged. -/
theorem record_ping_openFor_ne (db : DB) (c mm s t : Int) (r : String)
    (ts : Int) (c2 t2 : Int) (h : t ≠ t2) :
    openFor (record_ping db c mm s t r ts) c2 t2 = openFor db c2 t2 := by
  unfold record_ping
  split
  · rfl
  · unfold openFor
    simp only [List.filter_append]
    have hnew : List.filter (isOpenFor c2 t2)
        ([{ id := db.nextPingId, chat_id := c, source_message_id := mm,
            source_user_id := s, target_user_id := t, ping_reason := r,
            ping_ts := ts, close_ts := none, close_type := none,
            close_message_id := none,
            reaction_emoji := none }] : List Ping) = [] := by
      simp [isOpenFor, beq_iff_eq, h]
    rw [hnew, List.append_nil]

/-- The entity loop of `on_message` never opens an obligation against the
message's own author (`target_user_id != message.from_user.id` is checked
before `record_ping`), so the author's open obligations are untouched. -/
theorem processEntity_openFor (db : DB) (botId : Option Int) (m : Msg)
    (e : Entity) :
    openFor (processEntity db botId m e) m.chat_id m.from_id
      = openFor db m.chat_id m.from_id := by
  cases e with
  | textMention uid isBot =>
    simp only [processEntity]
    split
    · split
      · rename_i hguard
        have hne : uid ≠ m.from_id := by
          rw [Bool.and_eq_true] at hguard
          simpa [bne_iff_ne] using hguard.2
        exact record_ping_openFor_ne db m.chat_id m.message_id m.from_id
          uid "text_mention" m.date m.chat_id m.from_id hne
      · rfl
    · rfl
  | mention un =>
    have hroc : openFor (resolveOrCreateProvisional db un m.date).2
        m.chat_id m.from_id = openFor db m.chat_id m.from_id := by
      unfold openFor
      rw [roc_pings]
    simp only [processEntity]
    split
    · split
      · rename_i hguard
        have hne : (resolveOrCreateProvisional db un m.date).1
            ≠ m.from_id := by
          rw [Bool.and_eq_true] at hguard
          simpa [bne_iff_ne] using hguard.2
        rw [record_ping_openFor_ne _ _ _ _ _ _ _ _ _ hne]
        exact hroc
      · exact hroc
    · rfl

/-- The whole entity loop preserves the author's open obligations. -/
theorem foldl_processEntity_openFor (botId : Option Int) (m : Msg)
    (es : List Entity) (db : DB) :
    openFor (es.foldl (fun s e => processEntity s botId m e) db)
      m.chat_id m.from_id = openFor db m.chat_id m.from_id := by
  induction es generalizing db with
  | nil => rfl
  | cons e rest ih =>
    rw [List.foldl_cons, ih, processEntity_openFor]

/-! ## Claims -/

/-- C1.  Invariant A (uniqueness of open obligations): after any sequence
of `open` (`record_ping`) calls starting from the freshly initialised
database, every `(conversation, target)` pair has at most one open
obligation; and an `open` call made while an obligation is already open
for its pair returns the state unchanged (a no-op — `record_ping` is a
total function, not an error path). -/
theorem invariantA_open_uniqueness :
    (∀ (calls : List OpenArgs) (c t : Int),
      (openFor (applyOpens DB.empty calls) c t).length ≤ 1) ∧
    (∀ (db : DB) (c m s t : Int) (r : String) (ts : Int),
      openFor db c t ≠ [] → record_ping db c m s t r ts = db) := by
  constructor
  · intro calls c t
    exact invA_applyOpens DB.empty invA_empty calls c t
  · exact record_ping_of_open

/-- C2.  Contract of closing by message: when no open obligation exists
for `(conversation, target)`, the call returns `none` and mutates nothing.
Otherwise it picks the open obligation `q` with the smallest `ping_ts`,
breaking ties by insertion order (`q` sits after only rows with strictly
larger `ping_ts`), returns `some q.id`, stamps exactly `q` closed with
`close_type = "message"`, the closing message id and the close timestamp,
and keeps every other row. -/
theorem closeOldestByMessage_contract (db : DB) (chat tgt cmid cts : Int) :
    (openFor db chat tgt = [] →
      close_oldest_open_ping_by_message db chat tgt cmid cts = (none, db)) ∧
    (openFor db chat tgt ≠ [] →
      ∃ q l1 l2,
        openFor db chat tgt = l1 ++ q :: l2 ∧
        (∀ p ∈ openFor db chat tgt, q.ping_ts ≤ p.ping_ts) ∧
        (∀ p ∈ l1, q.ping_ts < p.ping_ts) ∧
        (close_oldest_open_ping_by_message db chat tgt cmid cts).1
          = some q.id ∧
        { q with close_ts := some cts, close_type := some "message",
                 close_message_id := some cmid }
          ∈ (close_oldest_open_ping_by_message db chat tgt cmid cts).2.pings ∧
        (∀ p ∈ db.pings, p.id ≠ q.id →
          p ∈ (close_oldest_open_ping_by_message db chat tgt cmid cts).2.pings) ∧
        (close_oldest_open_ping_by_message db chat tgt cmid cts).2.pings
          = db.pings.map (stampClosedByMessage q.id cmid cts)) :=
  close_oldest_char db chat tgt cmid cts

/-- C2, witness: on the concrete ledger `dbTwoPings`, where target 5 has an
open obligation in chat 1, the close contract applies. -/
theorem closeOldestByMessage_contract_witness :
    ∃ q l1 l2,
      openFor dbTwoPings 1 5 = l1 ++ q :: l2 ∧
      (∀ p ∈ openFor dbTwoPings 1 5, q.ping_ts ≤ p.ping_ts) ∧
      (∀ p ∈ l1, q.ping_ts < p.ping_ts) ∧
      (close_oldest_open_ping_by_message dbTwoPings 1 5 20 200).1
        = some q.id ∧
      { q with close_ts := some (200 : Int), close_type := some "message",
               close_message_id := some (20 : Int) }
        ∈ (close_oldest_open_ping_by_message dbTwoPings 1 5 20 200).2.pings ∧
      (∀ p ∈ dbTwoPings.pings, p.id ≠ q.id →
        p ∈ (close_oldest_open_ping_by_message dbTwoPings 1 5 20 200).2.pings) ∧
      (close_oldest_open_ping_by_message dbTwoPings 1 5 20 200).2.pings
        = dbTwoPings.pings.map (stampClosedByMessage q.id 20 200) :=
  (closeOldestByMessage_contract dbTwoPings 1 5 20 200).2 (by decide)

/-- C1, witness: opening twice for the same `(conversation, target)` —
the second call is a no-op on the concrete state. -/
theorem invariantA_open_uniqueness_witness :
    record_ping (record_ping DB.empty 1 10 2 5 "mention" 100)
      1 11 3 5 "mention" 110
      = record_ping DB.empty 1 10 2 5 "mention" 100 :=
  invariantA_open_uniqueness.2
    (record_ping DB.empty 1 10 2 5 "mention" 100) 1 11 3 5 "mention" 110
    (by decide)

/-- C10.  Per-conversation frame isolation: an `open` or close-by-message
call for conversation `c1` leaves the obligations of any other
conversation `c2` unchanged (for the close this uses the `SERIAL`
primary-key uniqueness of ping ids); and the uniqueness check is scoped
per conversation — opening against the same target in two different
conversations yields one open obligation in each. -/
theorem frame_isolation_per_conversation :
    (∀ (db : DB) (c1 c2 m s t : Int) (r : String) (ts : Int), c1 ≠ c2 →
      (record_ping db c1 m s t r ts).pings.filter (fun p => p.chat_id == c2)
        = db.pings.filter (fun p => p.chat_id == c2)) ∧
    (∀ (db : DB) (c1 c2 t cmid cts : Int), c1 ≠ c2 →
      (db.pings.map (·.id)).Nodup →
      (close_oldest_open_ping_by_message db c1 t cmid cts).2.pings.filter
          (fun p => p.chat_id == c2)
        = db.pings.filter (fun p => p.chat_id == c2)) ∧
    (∀ (c1 c2 m1 m2 s1 s2 t : Int) (r1 r2 : String) (ts1 ts2 : Int),
      c1 ≠ c2 →
      (openFor (record_ping (record_ping DB.empty c1 m1 s1 t r1 ts1)
          c2 m2 s2 t r2 ts2) c1 t).length = 1 ∧
      (openFor (record_ping (record_ping DB.empty c1 m1 s1 t r1 ts1)
          c2 m2 s2 t r2 ts2) c2 t).length = 1) := by
  refine ⟨?_, ?_, ?_⟩
  · intro db c1 c2 m s t r ts hne
    unfold record_ping
    split
    · rfl
    · simp only [List.filter_append]
      have hnew : List.filter (fun p => p.chat_id == c2)
          ([{ id := db.nextPingId, chat_id := c1, source_message_id := m,
              source_user_id := s, target_user_id := t, ping_reason := r,
              ping_ts := ts, close_ts := none, close_type := none,
              close_message_id := none,
              reaction_emoji := none }] : List Ping) = [] := by
        simp [beq_iff_eq, hne]
      rw [hnew, List.append_nil]
  · intro db c1 c2 t cmid cts hne hnodup
    cases hsel : selectFirstMinBy (·.ping_ts)
        (db.pings.filter (isOpenFor c1 t)) with
    | none =>
      have : close_oldest_open_ping_by_message db c1 t cmid cts
          = (none, db) := by
        unfold close_oldest_open_ping_by_message
        rw [hsel]
      rw [this]
    | some row =>
      have hclose : (close_oldest_open_ping_by_message db c1 t cmid cts).2
          = { db with
              pings := db.pings.map
                (stampClosedByMessage row.id cmid cts) } := by
        unfold close_oldest_open_ping_by_message
        rw [hsel]
      rw [hclose]
      have hrow_mem : row ∈ db.pings.filter (isOpenFor c1 t) :=
        selectFirstMinBy_mem _ _ _ hsel
      have hrow_pings : row ∈ db.pings := (List.mem_filter.mp hrow_mem).1
      have hrow_chat : row.chat_id = c1 := by
        have := (List.mem_filter.mp hrow_mem).2
        unfold isOpenFor at this
        simp only [Bool.and_eq_true, beq_iff_eq] at this
        exact this.1.1
      refine filter_map_invariant (stampClosedByMessage row.id cmid cts)
        (fun p => p.chat_id == c2) db.pings ?_ ?_
      · intro x
        unfold stampClosedByMessage
        split <;> rfl
      · intro x hx hpx
        have hxchat : x.chat_id = c2 := by simpa [beq_iff_eq] using hpx
        have hxne : x ≠ row := fun hh => hne (by
          rw [← hrow_chat, ← hxchat, hh])
        have hxid : x.id ≠ row.id := fun hid =>
          hxne (List.inj_on_of_nodup_map hnodup hx hrow_pings hid)
        unfold stampClosedByMessage
        rw [if_neg (by simpa [beq_iff_eq] using hxid)]
  · intro c1 c2 m1 m2 s1 s2 t r1 r2 ts1 ts2 hne
    have h1 : record_ping DB.empty c1 m1 s1 t r1 ts1 =
        { users := [], nextPingId := 2, activatedChats := [],
          pings := [{ id := 1, chat_id := c1, source_message_id := m1,
                      source_user_id := s1, target_user_id := t,
                      ping_reason := r1, ping_ts := ts1, close_ts := none,
                      close_type := none, close_message_id := none,
                      reaction_emoji := none }] } := by
      unfold record_ping DB.empty
      rfl
    rw [h1]
    have hnotopen : isOpenFor c2 t
        { id := 1, chat_id := c1, source_message_id := m1,
          source_user_id := s1, target_user_id := t, ping_reason := r1,
          ping_ts := ts1, close_ts := none, close_type := none,
          close_message_id := none, reaction_emoji := none } = false := by
      unfold isOpenFor
      simp [beq_iff_eq, hne]
    have h2 : record_ping
        { users := [], nextPingId := 2, activatedChats := [],
          pings := [{ id := 1, chat_id := c1, source_message_id := m1,
                      source_user_id := s1, target_user_id := t,
                      ping_reason := r1, ping_ts := ts1, close_ts := none,
                      close_type := none, close_message_id := none,
                      reaction_emoji := none }] } c2 m2 s2 t r2 ts2 =
        { users := [], nextPingId := 3, activatedChats := [],
          pings := [{ id := 1, chat_id := c1, source_message_id := m1,
                      source_user_id := s1, target_user_id := t,
                      ping_reason := r1, ping_ts := ts1, close_ts := none,
                      close_type := none, close_message_id := none,
                      reaction_emoji := none },
                    { id := 2, chat_id := c2, source_message_id := m2,
                      source_user_id := s2, target_user_id := t,
                      ping_reason := r2, ping_ts := ts2, close_ts := none,
                      close_type := none, close_message_id := none,
                      reaction_emoji := none }] } := by
      unfold record_ping
      rw [if_neg (by simp [List.find?, hnotopen])]
      rfl
    rw [h2]
    constructor
    · unfold openFor
      simp only [List.filter]
      rw [show isOpenFor c1 t
          { id := 1, chat_id := c1, source_message_id := m1,
            source_user_id := s1, target_user_id := t, ping_reason := r1,
            ping_ts := ts1, close_ts := none, close_type := none,
            close_message_id := none, reaction_emoji := none } = true by
        unfold isOpenFor; simp]
      rw [show isOpenFor c1 t
          { id := 2, chat_id := c2, source_message_id := m2,
            source_user_id := s2, target_user_id := t, ping_reason := r2,
            ping_ts := ts2, close_ts := none, close_type := none,
            close_message_id := none, reaction_emoji := none } = false by
        unfold isOpenFor; simp [beq_iff_eq, Ne.symm hne]]
      rfl
    · unfold openFor
      simp only [List.filter]
      rw [show isOpenFor c2 t
          { id := 1, chat_id := c1, source_message_id := m1,
            source_user_id := s1, target_user_id := t, ping_reason := r1,
            ping_ts := ts1, close_ts := none, close_type := none,
            close_message_id := none, reaction_emoji := none } = false by
        unfold isOpenFor; simp [beq_iff_eq, hne]]
      rw [show isOpenFor c2 t
          { id := 2, chat_id := c2, source_message_id := m2,
            source_user_id := s2, target_user_id := t, ping_reason := r2,
            ping_ts := ts2, close_ts := none, close_type := none,
            close_message_id := none, reaction_emoji := none } = true by
        unfold isOpenFor; simp]
      rfl

/-- C10, witness: the frame and double-open facts at concrete values
(conversations 1 and 2, target 5). -/
theorem frame_isolation_per_conversation_witness :
    ((record_ping dbTwoPings 2 30 7 5 "mention" 300).pings.filter
        (fun p => p.chat_id == (1 : Int))
      = dbTwoPings.pings.filter (fun p => p.chat_id == (1 : Int))) ∧
    ((close_oldest_open_ping_by_message dbTwoPings 1 5 20 200).2.pings.filter
        (fun p => p.chat_id == (2 : Int))
      = dbTwoPings.pings.filter (fun p => p.chat_id == (2 : Int))) ∧
    ((openFor (record_ping (record_ping DB.empty 1 10 2 5 "mention" 100)
        2 11 3 5 "mention" 110) 1 5).length = 1 ∧
     (openFor (record_ping (record_ping DB.empty 1 10 2 5 "mention" 100)
        2 11 3 5 "mention" 110) 2 5).length = 1) :=
  ⟨frame_isolation_per_conversation.1 dbTwoPings 2 1 30 7 5 "mention" 300
    (by decide),
   frame_isolation_per_conversation.2.1 dbTwoPings 1 2 5 20 200 (by decide)
    (by decide),
   frame_isolation_per_conversation.2.2 1 2 10 11 2 3 5 "mention" "mention"
    100 110 (by decide)⟩

/-- C3, counterexample: the ledger `dbTwoPings` holds an open obligation
against participant 5 in chat 1; participant 5 then communicates by
reacting in chat 1, yet the dispatcher leaves the state completely
unchanged and the obligation stays open — no reaction-driven close path
exists (the bot registers no reaction handler, and `app/db.py` has no
close-by-reaction operation; the `reaction_emoji` column is never
written). -/
theorem no_reaction_close_counterexample :
    dispatch dbTwoPings none (Event.reaction 1 5 10 "+1" 200)
      = dbTwoPings ∧
    openFor (dispatch dbTwoPings none (Event.reaction 1 5 10 "+1" 200))
      1 5 ≠ [] := by
  exact ⟨rfl, by decide⟩

/-- C3, amended: obligations are closed only by the message-driven path.
Dispatching any reaction event leaves the database unchanged (no
reaction handler is registered and no close-by-reaction operation
exists).  When the target participant next produces a qualifying
message in an activated conversation — a non-command text/caption
message whose author-registration step completes without a storage fault
(the `update_temp_user` primary-key violation aborts the handler before
the close), or a caption-less reply — the oldest open obligation against
the author at that point is stamped closed with `close_type = "message"`
and the closing message id.  The entity loop never opens an obligation
against the author itself, so the author's open obligations at close
time are those right after registration. -/
theorem dispatch_close_paths (db : DB) (botId : Option Int) (m : Msg)
    (hcmd : m.isCommand = false)
    (hact : db.activatedChats.contains m.chat_id = true)
    (hauth : authorPasses botId m = true) :
    (∀ (c f rmid : Int) (g : String) (ats : Int),
      dispatch db botId (Event.reaction c f rmid g ats) = db) ∧
    (∀ db1, registerAuthor db m = Except.ok db1 →
      m.hasTextOrCaption = true →
      openFor db1 m.chat_id m.from_id ≠ [] →
      ∃ q, q ∈ openFor db1 m.chat_id m.from_id ∧
        (∀ p ∈ openFor db1 m.chat_id m.from_id, q.ping_ts ≤ p.ping_ts) ∧
        { q with close_ts := some m.date, close_type := some "message",
                 close_message_id := some m.message_id }
          ∈ (dispatch db botId (Event.message m)).pings) ∧
    (m.hasTextOrCaption = false → m.isReply = true →
      openFor db m.chat_id m.from_id ≠ [] →
      ∃ q, q ∈ openFor db m.chat_id m.from_id ∧
        (∀ p ∈ openFor db m.chat_id m.from_id, q.ping_ts ≤ p.ping_ts) ∧
        { q with close_ts := some m.date, close_type := some "message",
                 close_message_id := some m.message_id }
          ∈ (dispatch db botId (Event.message m)).pings) := by
  refine ⟨fun c f rmid g ats => rfl, ?_, ?_⟩
  · intro db1 hreg htext hne
    have hdisp : dispatch db botId (Event.message m)
        = (close_oldest_open_ping_by_message
            (m.entities.foldl (fun s e => processEntity s botId m e) db1)
            m.chat_id m.from_id m.message_id m.date).2 := by
      show (if m.hasTextOrCaption then on_message db botId m
            else if m.isReply then on_reply db botId m else db) = _
      rw [htext]
      simp only [if_true]
      unfold on_message
      rw [hcmd, hact, hauth]
      simp only [Bool.false_eq_true, if_false, Bool.not_true,
        Bool.true_eq_false, if_true, hreg]
    have hopen2 : openFor
        (m.entities.foldl (fun s e => processEntity s botId m e) db1)
        m.chat_id m.from_id = openFor db1 m.chat_id m.from_id :=
      foldl_processEntity_openFor botId m m.entities db1
    obtain ⟨q, l1, l2, hdec, hmin, _, _, hmem, _, _⟩ :=
      (close_oldest_char
        (m.entities.foldl (fun s e => processEntity s botId m e) db1)
        m.chat_id m.from_id m.message_id m.date).2
        (by rw [hopen2]; exact hne)
    refine ⟨q, ?_, ?_, ?_⟩
    · rw [← hopen2, hdec]
      exact List.mem_append_right _ (List.mem_cons_self _ _)
    · intro p hp
      exact hmin p (by rw [hopen2]; exact hp)
    · rw [hdisp]
      exact hmem
  · intro htext hreply hne
    have hdisp : dispatch db botId (Event.message m)
        = (close_oldest_open_ping_by_message db m.chat_id m.from_id
            m.message_id m.date).2 := by
      show (if m.hasTextOrCaption then on_message db botId m
            else if m.isReply then on_reply db botId m else db) = _
      rw [htext, hreply]
      simp only [Bool.false_eq_true, if_false, if_true]
      unfold on_reply
      rw [hact, hauth]
      simp only [Bool.not_true, Bool.false_eq_true, if_false, if_true]
    obtain ⟨q, l1, l2, hdec, hmin, _, _, hmem, _, _⟩ :=
      (close_oldest_char db m.chat_id m.from_id m.message_id m.date).2 hne
    refine ⟨q, ?_, ?_, ?_⟩
    · rw [hdec]
      exact List.mem_append_right _ (List.mem_cons_self _ _)
    · exact hmin
    · rw [hdisp]
      exact hmem

/-- C3 amended, witness: participant 5's text message (author with a
username, carrying a `@bob` mention entity) and, separately, participant
5's caption-less reply both close the open obligation of `dbTwoPings`
with kind `message`; a reaction event changes nothing. -/
theorem dispatch_close_paths_witness :
    dispatch dbTwoPings none (Event.reaction 2 6 11 "+1" 300)
      = dbTwoPings ∧
    (∃ q, q ∈ openFor dbAfterRegister 1 5 ∧
      (∀ p ∈ openFor dbAfterRegister 1 5, q.ping_ts ≤ p.ping_ts) ∧
      { q with close_ts := some (200 : Int), close_type := some "message",
               close_message_id := some (20 : Int) }
        ∈ (dispatch dbTwoPings none (Event.message msgFromTarget5)).pings) ∧
    (∃ q, q ∈ openFor dbTwoPings 1 5 ∧
      (∀ p ∈ openFor dbTwoPings 1 5, q.ping_ts ≤ p.ping_ts) ∧
      { q with close_ts := some (210 : Int), close_type := some "message",
               close_message_id := some (21 : Int) }
        ∈ (dispatch dbTwoPings none
            (Event.message msgReplyFromTarget5)).pings) :=
  ⟨(dispatch_close_paths dbTwoPings none msgFromTarget5 rfl (by decide)
      (by decide)).1 2 6 11 "+1" 300,
   (dispatch_close_paths dbTwoPings none msgFromTarget5 rfl (by decide)
      (by decide)).2.1 dbAfterRegister rfl rfl (by decide),
   (dispatch_close_paths dbTwoPings none msgReplyFromTarget5 rfl
      (by decide) (by decide)).2.2 rfl rfl (by decide)⟩

/-- C7, counterexample: after a provisional participant is created for the
unresolved handle "alice", `resolve_username "alice"` returns that
provisional (negative) id even though no confirmed participant owns the
handle — the query `SELECT user_id FROM users WHERE lower(username) =
lower($1) ORDER BY last_seen_ts DESC LIMIT 1` does not filter out
negative (provisional) ids, so `resolve` can return a provisional id. -/
theorem resolve_returns_provisional_counterexample :
    resolve_username (create_temp_user_by_username DB.empty "alice" 100).2
      "alice" = some (tempUserIdOf "alice") ∧
    tempUserIdOf "alice" < 0 ∧
    ∀ u ∈ (create_temp_user_by_username DB.empty "alice" 100).2.users,
      u.user_id < 0 :=
  ⟨by decide, by decide, by decide⟩

/-- C7, amended: `resolve` performs a case-insensitive lookup and returns
the id of the most recently seen participant — confirmed or provisional —
owning the handle (ambiguity broken by most-recent last-seen), or none
when no participant at all owns it. -/
theorem resolve_username_contract (db : DB) (h : String) :
    (resolve_username db h = none ↔
      ∀ u ∈ db.users, usernameMatches u h = false) ∧
    (∀ uid, resolve_username db h = some uid →
      ∃ u, u ∈ db.users ∧ usernameMatches u h = true ∧ u.user_id = uid ∧
        ∀ v ∈ db.users, usernameMatches v h = true →
          v.last_seen_ts ≤ u.last_seen_ts) := by
  constructor
  · unfold resolve_username
    rw [Option.map_eq_none']
    rw [selectFirstMaxBy_none_iff]
    rw [List.filter_eq_nil_iff]
    constructor
    · intro hall u hu
      exact Bool.not_eq_true _ ▸ (by simpa using hall u hu)
    · intro hall u hu
      simp [hall u hu]
  · intro uid hres
    unfold resolve_username at hres
    rw [Option.map_eq_some'] at hres
    obtain ⟨x, hx, hxid⟩ := hres
    have hne : db.users.filter (usernameMatches · h) ≠ [] := by
      intro hnil
      rw [(selectFirstMaxBy_none_iff (·.last_seen_ts)
        (db.users.filter (usernameMatches · h))).mpr hnil] at hx
      exact Option.noConfusion hx
    obtain ⟨y, hysel, hymem, hymax⟩ :=
      selectFirstMaxBy_spec (·.last_seen_ts)
        (db.users.filter (usernameMatches · h)) hne
    rw [hysel] at hx
    have hxy : y = x := Option.some_inj.mp hx
    subst hxy
    refine ⟨y, (List.mem_filter.mp hymem).1, (List.mem_filter.mp hymem).2,
      hxid, ?_⟩
    intro v hv hvm
    exact hymax v (List.mem_filter.mpr ⟨hv, hvm⟩)

/-- C7 amended, witness: the case-insensitive lookup of `"ALICE"` on the
state holding the provisional "alice" record returns that record's id,
which is maximal by last-seen among matches. -/
theorem resolve_username_contract_witness :
    ∃ u, u ∈ (create_temp_user_by_username DB.empty "alice" 100).2.users ∧
      usernameMatches u "ALICE" = true ∧
      u.user_id = tempUserIdOf "alice" ∧
      ∀ v ∈ (create_temp_user_by_username DB.empty "alice" 100).2.users,
        usernameMatches v "ALICE" = true →
          v.last_seen_ts ≤ u.last_seen_ts :=
  (resolve_username_contract
      (create_temp_user_by_username DB.empty "alice" 100).2 "ALICE").2
    (tempUserIdOf "alice") (by decide)

/-- C4, counterexample: the handle "cfgucvh" hashes to `0`, so its derived
provisional id is `0`, which Python's truthiness test `if not
target_user_id` treats like a failed resolution.  A second call with the
case-variant handle "Cfgucvh" therefore re-derives a provisional id from
its own casing, yielding a different id and a second provisional record
for the same case-insensitive handle. -/
theorem provisional_idempotence_counterexample :
    (resolveOrCreateProvisional DB.empty "cfgucvh" 100).1 = 0 ∧
    (resolveOrCreateProvisional
        (resolveOrCreateProvisional DB.empty "cfgucvh" 100).2
        "Cfgucvh" 110).1
      ≠ (resolveOrCreateProvisional DB.empty "cfgucvh" 100).1 ∧
    ((resolveOrCreateProvisional
        (resolveOrCreateProvisional DB.empty "cfgucvh" 100).2
        "Cfgucvh" 110).2.users.filter
      (usernameMatches · "cfgucvh")).length = 2 :=
  ⟨by decide, by decide, by decide⟩

/-- C4, amended: provided the handle's derived 31-bit digest is nonzero
(so the provisional id is not the Python-falsy `0`), two
`resolveOrCreateProvisional` calls whose handles agree up to letter case,
starting from a state where no participant owns the handle and no row
carries the derived id, yield the same provisional id, leave the state of
the first call untouched, and leave exactly one participant record for
that handle, bearing the derived id. -/
theorem provisional_idempotence (db : DB) (h1 h2 : String) (now1 now2 : Int)
    (hcase : lowerStr h1 = lowerStr h2)
    (hnone : ∀ u ∈ db.users, usernameMatches u h1 = false)
    (hfresh : ∀ u ∈ db.users, u.user_id ≠ tempUserIdOf h1)
    (hhash : hash_username h1 ≠ 0) :
    (resolveOrCreateProvisional
        (resolveOrCreateProvisional db h1 now1).2 h2 now2).1
      = (resolveOrCreateProvisional db h1 now1).1 ∧
    (resolveOrCreateProvisional
        (resolveOrCreateProvisional db h1 now1).2 h2 now2).2
      = (resolveOrCreateProvisional db h1 now1).2 ∧
    ∃ r, (resolveOrCreateProvisional db h1 now1).2.users.filter
        (usernameMatches · h1) = [r] ∧ r.user_id = tempUserIdOf h1 := by
  have hmatches12 : ∀ u : User, usernameMatches u h2 = usernameMatches u h1 := by
    intro u
    unfold usernameMatches
    cases u.username <;> simp [hcase]
  have hres1 : resolve_username db h1 = none :=
    resolve_none_of_no_match db h1 hnone
  have hfreshb : db.users.any (·.user_id == tempUserIdOf h1) = false := by
    rw [List.any_eq_false]
    intro u hu
    simpa [beq_iff_eq] using hfresh u hu
  have hcall1 : resolveOrCreateProvisional db h1 now1
      = (tempUserIdOf h1,
         { db with
           users := db.users ++
             [{ user_id := tempUserIdOf h1, username := some h1,
                first_name := none, last_name := none,
                last_seen_ts := now1 }] }) := by
    unfold resolveOrCreateProvisional
    rw [hres1]
    unfold create_temp_user_by_username
    rw [if_neg (by rw [hfreshb]; exact Bool.false_ne_true)]
  have hnewmatch1 : usernameMatches
      { user_id := tempUserIdOf h1, username := some h1,
        first_name := none, last_name := none, last_seen_ts := now1 } h1
      = true := by
    unfold usernameMatches
    exact beq_self_eq_true _
  have hfilter1 : ({ db with
      users := db.users ++
        [{ user_id := tempUserIdOf h1, username := some h1,
           first_name := none, last_name := none,
           last_seen_ts := now1 }] } : DB).users.filter
      (usernameMatches · h1)
      = [{ user_id := tempUserIdOf h1, username := some h1,
           first_name := none, last_name := none,
           last_seen_ts := now1 }] := by
    simp only [List.filter_append]
    rw [List.filter_eq_nil_iff.mpr (by intro u hu; simp [hnone u hu])]
    rw [List.filter_cons, hnewmatch1]
    rfl
  have hfilter2 : ({ db with
      users := db.users ++
        [{ user_id := tempUserIdOf h1, username := some h1,
           first_name := none, last_name := none,
           last_seen_ts := now1 }] } : DB).users.filter
      (usernameMatches · h2)
      = [{ user_id := tempUserIdOf h1, username := some h1,
           first_name := none, last_name := none,
           last_seen_ts := now1 }] := by
    have : ∀ l : List User,
        l.filter (usernameMatches · h2) = l.filter (usernameMatches · h1) := by
      intro l
      apply List.filter_congr
      intro u _
      exact hmatches12 u
    rw [this]
    exact hfilter1
  have hres2 : resolve_username
      { db with
        users := db.users ++
          [{ user_id := tempUserIdOf h1, username := some h1,
             first_name := none, last_name := none,
             last_seen_ts := now1 }] } h2 = some (tempUserIdOf h1) := by
    unfold resolve_username
    rw [hfilter2]
    simp [selectFirstMaxBy]
  have hne0 : (tempUserIdOf h1 == (0 : Int)) = false := by
    unfold tempUserIdOf
    simp only [beq_eq_false_iff_ne, ne_eq, neg_eq_zero, Int.natCast_eq_zero]
    exact hhash
  have hcall2 : resolveOrCreateProvisional
      { db with
        users := db.users ++
          [{ user_id := tempUserIdOf h1, username := some h1,
             first_name := none, last_name := none,
             last_seen_ts := now1 }] } h2 now2
      = (tempUserIdOf h1,
         { db with
           users := db.users ++
             [{ user_id := tempUserIdOf h1, username := some h1,
                first_name := none, last_name := none,
                last_seen_ts := now1 }] }) := by
    unfold resolveOrCreateProvisional
    rw [hres2]
    simp only [hne0, Bool.false_eq_true, if_false]
  rw [hcall1]
  simp only [hcall2]
  exact ⟨trivial, trivial, _, hfilter1, rfl⟩

/-- C4 amended, witness: "Alice" then "alice" from the empty store yield
the same provisional id and a single record. -/
theorem provisional_idempotence_witness :
    (resolveOrCreateProvisional
        (resolveOrCreateProvisional DB.empty "Alice" 100).2 "alice" 110).1
      = (resolveOrCreateProvisional DB.empty "Alice" 100).1 ∧
    (resolveOrCreateProvisional
        (resolveOrCreateProvisional DB.empty "Alice" 100).2 "alice" 110).2
      = (resolveOrCreateProvisional DB.empty "Alice" 100).2 ∧
    ∃ r, (resolveOrCreateProvisional DB.empty "Alice" 100).2.users.filter
        (usernameMatches · "Alice") = [r] ∧
      r.user_id = tempUserIdOf "Alice" :=
  provisional_idempotence DB.empty "Alice" "alice" 100 110
    (by decide) (by intro u hu; cases hu) (by intro u hu; cases hu)
    (by decide)

/-- C5, counterexample: the handle "ALICE" was previously given the
provisional id `pAlice` by `resolveOrCreateProvisional` (it resolves
case-insensitively onto the record created for "alice"), and an
obligation references `pAlice`.  Yet `promote("ALICE", 42)`
(`update_temp_user`) looks the temporary user up by exact, case-sensitive
username equality (`username = $1 AND user_id < 0`), finds nothing, and
mutates no row: the obligation is left pointing at the dead provisional
id and `resolve` still answers the provisional id, not 42. -/
theorem promote_counterexample :
    resolveOrCreateProvisional dbAlicePing "ALICE" 110
      = (pAlice, dbAlicePing) ∧
    update_temp_user dbAlicePing "ALICE" 42 none none 120
      = Except.ok dbAlicePing ∧
    pAlice < 0 ∧
    (∃ p, p ∈ dbAlicePing.pings ∧ p.target_user_id = pAlice) ∧
    resolve_username dbAlicePing "ALICE" = some pAlice ∧
    pAlice ≠ 42 :=
  ⟨by decide, rfl, by decide,
   ⟨{ id := 1, chat_id := 1, source_message_id := 10, source_user_id := 2,
      target_user_id := pAlice, ping_reason := "mention", ping_ts := 100,
      close_ts := none, close_type := none, close_message_id := none,
      reaction_emoji := none }, by decide, by decide⟩,
   by decide, by decide⟩

/-- C5, amended: when the handle given to `promote` matches the stored
provisional record's username exactly (case-sensitively), and no distinct
user row already carries the confirmed id (otherwise the primary-key
update raises and nothing is repointed), promotion is complete: every
obligation that referenced the provisional id references the confirmed
id, none is left pointing at the provisional id, and `resolve(handle)`
returns the confirmed id. -/
theorem promote_contract (db : DB) (un : String) (rid : Int)
    (first last : Option String) (now : Int) (temp : User)
    (hfind : db.users.find?
        (fun u => u.username == some un && u.user_id < 0) = some temp)
    (hnoconf : ∀ u ∈ db.users, u.user_id ≠ rid)
    (hreal : 0 < rid)
    (honly : ∀ u ∈ db.users, usernameMatches u un = true →
      u.user_id = temp.user_id) :
    ∃ db2, update_temp_user db un rid first last now = Except.ok db2 ∧
      (∀ p ∈ db.pings, p.target_user_id = temp.user_id →
        { p with target_user_id := rid } ∈ db2.pings) ∧
      (∀ p ∈ db2.pings, p.target_user_id ≠ temp.user_id) ∧
      (∀ p ∈ db.pings, p.target_user_id ≠ temp.user_id → p ∈ db2.pings) ∧
      resolve_username db2 un = some rid := by
  have hprop := List.find?_some hfind
  have htemp_mem : temp ∈ db.users := List.mem_of_find?_eq_some hfind
  rw [Bool.and_eq_true] at hprop
  have htempname : temp.username = some un := by
    have := hprop.1
    simpa [beq_iff_eq] using this
  have htempneg : temp.user_id < 0 := by
    have := hprop.2
    exact of_decide_eq_true this
  have htempne : temp.user_id ≠ rid := fun hh =>
    absurd (hh ▸ htempneg) (not_lt.mpr (le_of_lt hreal))
  have hconfb : db.users.any
      (fun u => u.user_id == rid && u.user_id != temp.user_id) = false := by
    rw [List.any_eq_false]
    intro u hu
    simp only [Bool.and_eq_true, beq_iff_eq, not_and]
    intro hh
    exact absurd hh (hnoconf u hu)
  have hok : update_temp_user db un rid first last now =
      Except.ok
        { db with
          users := db.users.map (fun u =>
            if u.user_id == temp.user_id then
              { u with user_id := rid, first_name := first,
                       last_name := last, last_seen_ts := now }
            else u),
          pings := db.pings.map (fun p =>
            if p.target_user_id == temp.user_id then
              { p with target_user_id := rid }
            else p) } := by
    unfold update_temp_user
    simp only [hfind]
    rw [if_neg (by rw [hconfb]; exact Bool.false_ne_true)]
  refine ⟨_, hok, ?_, ?_, ?_, ?_⟩
  · intro p hp hpt
    have : (if p.target_user_id == temp.user_id then
        { p with target_user_id := rid } else p)
        = { p with target_user_id := rid } := by
      rw [if_pos (by simpa [beq_iff_eq] using hpt)]
    exact this ▸ List.mem_map_of_mem _ hp
  · intro p hp
    rcases List.mem_map.mp hp with ⟨p0, _, hupd⟩
    by_cases hp0 : p0.target_user_id = temp.user_id
    · rw [if_pos (by simpa [beq_iff_eq] using hp0)] at hupd
      rw [← hupd]
      exact fun hh => htempne hh.symm
    · rw [if_neg (by simpa [beq_iff_eq] using hp0)] at hupd
      rw [← hupd]
      exact hp0
  · intro p hp hpt
    have : (if p.target_user_id == temp.user_id then
        { p with target_user_id := rid } else p) = p := by
      rw [if_neg (by simpa [beq_iff_eq] using hpt)]
    exact this ▸ List.mem_map_of_mem _ hp
  · set db2users := db.users.map (fun u =>
      if u.user_id == temp.user_id then
        { u with user_id := rid, first_name := first,
                 last_name := last, last_seen_ts := now }
      else u) with hdb2users
    have hallreal : ∀ w ∈ db2users.filter (usernameMatches · un),
        w.user_id = rid := by
      intro w hw
      have hw2 := List.mem_filter.mp hw
      rcases List.mem_map.mp hw2.1 with ⟨u0, hu0, hupd⟩
      by_cases h0 : u0.user_id = temp.user_id
      · rw [if_pos (by simpa [beq_iff_eq] using h0)] at hupd
        rw [← hupd]
      · rw [if_neg (by simpa [beq_iff_eq] using h0)] at hupd
        have : usernameMatches u0 un = true := by
          rw [hupd]; exact hw2.2
        exact absurd (honly u0 hu0 this) h0
    set w0 : User := { temp with
      user_id := rid, first_name := first, last_name := last,
      last_seen_ts := now } with hw0def
    have hw0 : w0 ∈ db2users := by
      have : (if temp.user_id == temp.user_id then w0 else temp) = w0 := by
        rw [if_pos (beq_self_eq_true _)]
      exact this ▸ List.mem_map_of_mem _ htemp_mem
    have hw0m : usernameMatches w0 un = true := by
      have hwn : w0.username = some un := by rw [hw0def]; exact htempname
      unfold usernameMatches
      rw [hwn]
      exact beq_self_eq_true _
    have hfne : db2users.filter (usernameMatches · un) ≠ [] := by
      intro hnil
      have : w0 ∈ db2users.filter (usernameMatches · un) :=
        List.mem_filter.mpr ⟨hw0, hw0m⟩
      rw [hnil] at this
      cases this
    obtain ⟨x, hxsel, hxmem, _⟩ :=
      selectFirstMaxBy_spec (·.last_seen_ts)
        (db2users.filter (usernameMatches · un)) hfne
    unfold resolve_username
    show (selectFirstMaxBy (·.last_seen_ts)
        (db2users.filter (usernameMatches · un))).map (·.user_id)
      = some rid
    rw [hxsel]
    show some x.user_id = some rid
    rw [hallreal x hxmem]

/-- C5 amended, witness: promoting "alice" (exact casing) to confirmed
id 42 on the concrete state `dbAlicePing` repoints the obligation and
makes `resolve` answer 42. -/
theorem promote_contract_witness :
    ∃ db2, update_temp_user dbAlicePing "alice" 42 none none 120
        = Except.ok db2 ∧
      (∀ p ∈ dbAlicePing.pings, p.target_user_id = tempAlice.user_id →
        { p with target_user_id := (42 : Int) } ∈ db2.pings) ∧
      (∀ p ∈ db2.pings, p.target_user_id ≠ tempAlice.user_id) ∧
      (∀ p ∈ dbAlicePing.pings, p.target_user_id ≠ tempAlice.user_id →
        p ∈ db2.pings) ∧
      resolve_username db2 "alice" = some 42 :=
  promote_contract dbAlicePing "alice" 42 none none 120 tempAlice
    (by decide) (by decide) (by decide) (by decide)

/-- C9, counterexample: the handle "cfgucvh" has MD5 32-bit prefix
`0x80000000`, which reduces to `0` modulo `2^31`, so its derived
provisional id is `0` — not a negative integer. -/
theorem provisional_id_not_negative_counterexample :
    tempUserIdOf "cfgucvh" = 0 ∧ ¬tempUserIdOf "cfgucvh" < 0 :=
  ⟨by decide, by decide⟩

/-- C9, amended: the derived provisional id is always nonpositive
(negative except for the measure-zero case of a handle whose 31-bit
digest is `0`, where it is `0`) and lies in `(-2^31, 0]`; in particular
it never equals a positive (externally assigned, confirmed) participant
id. -/
theorem provisional_id_space_disjoint (username : String) :
    tempUserIdOf username ≤ 0 ∧
    -2147483648 < tempUserIdOf username ∧
    ∀ cid : Int, 0 < cid → tempUserIdOf username ≠ cid := by
  have hlt : hash_username username < 2147483648 :=
    Nat.mod_lt _ (by norm_num)
  refine ⟨?_, ?_, ?_⟩
  · exact neg_nonpos.mpr (Int.natCast_nonneg _)
  · have : (hash_username username : Int) < 2147483648 := by
      exact_mod_cast hlt
    unfold tempUserIdOf
    omega
  · intro cid hcid hne
    have h0 : tempUserIdOf username ≤ 0 :=
      neg_nonpos.mpr (Int.natCast_nonneg _)
    rw [hne] at h0
    exact absurd hcid (not_lt.mpr h0)

/-- C9 amended, witness: the derived id for "alice" is nonpositive, in
range, and distinct from confirmed id 42. -/
theorem provisional_id_space_disjoint_witness :
    tempUserIdOf "alice" ≤ 0 ∧
    -2147483648 < tempUserIdOf "alice" ∧
    (0 : Int) < 42 ∧ tempUserIdOf "alice" ≠ 42 :=
  ⟨(provisional_id_space_disjoint "alice").1,
   (provisional_id_space_disjoint "alice").2.1,
   by decide,
   (provisional_id_space_disjoint "alice").2.2 42 (by decide)⟩

/-- C8 (code bug): teardown deletes the conversation's obligations and the
activation row, but never any participant: the orphan query of
`deactivate_chat` selects user ids from the chat's pings *after* those
pings were deleted inside the same transaction, so it always returns the
empty set.  On `dbC8`, tearing chat 1 down removes the obligation yet
keeps participants 2 and 3 although they no longer belong to any
obligation. -/
theorem teardown_never_deletes_users :
    (∀ (db : DB) (chat : Int),
      (deactivate_chat db chat).2.users = db.users) ∧
    (deactivate_chat dbC8 1).1 = true ∧
    (deactivate_chat dbC8 1).2.pings = [] ∧
    (deactivate_chat dbC8 1).2.activatedChats = [] ∧
    (deactivate_chat dbC8 1).2.users = dbC8.users ∧
    dbC8.users ≠ [] ∧
    (∀ u ∈ dbC8.users, ∀ p ∈ (deactivate_chat dbC8 1).2.pings,
      p.source_user_id ≠ u.user_id ∧ p.target_user_id ≠ u.user_id) := by
  refine ⟨?_, by decide, by decide, by decide, by decide, by decide, ?_⟩
  · intro db chat
    unfold deactivate_chat
    split
    · have hchatgone : (db.pings.filter
          (fun p => p.chat_id != chat)).filter
          (fun p => p.chat_id == chat) = [] := by
        rw [List.filter_eq_nil_iff]
        intro p hp
        have := (List.mem_filter.mp hp).2
        simp only [bne_iff_ne, ne_eq] at this
        simp [this]
      simp only [hchatgone, List.map_nil, List.nil_append]
      have hdel : db.users.filter (fun u =>
          ([] : List Int).contains u.user_id &&
          (db.pings.filter (fun p => p.chat_id != chat)).all (fun p =>
            p.source_user_id != u.user_id &&
            p.target_user_id != u.user_id)) = [] := by
        rw [List.filter_eq_nil_iff]
        intro u _
        simp [List.contains]
      rw [hdel]
      show db.users.filter (fun u => !(([] : List User).contains u)) = db.users
      have : ∀ u ∈ db.users, (!(([] : List User).contains u)) = true := by
        intro u _
        rfl
      exact List.filter_eq_self.mpr this
    · rfl
  · intro u hu p hp
    rw [show (deactivate_chat dbC8 1).2.pings = [] from by decide] at hp
    cases hp

theorem insertSorted_perm (le : α → α → Bool) (x : α) (l : List α) :
    List.Perm (insertSorted le x l) (x :: l) := by
  induction l with
  | nil => exact List.Perm.refl _
  | cons y ys ih =>
    unfold insertSorted
    split
    · exact List.Perm.refl _
    · exact List.Perm.trans (List.Perm.cons y ih) (List.Perm.swap x y ys)

theorem insertionSort_perm (le : α → α → Bool) (l : List α) :
    List.Perm (insertionSort le l) l := by
  induction l with
  | nil => exact List.Perm.refl _
  | cons x xs ih =>
    exact List.Perm.trans (insertSorted_perm le x (insertionSort le xs))
      (List.Perm.cons x ih)

theorem insertSorted_pairwise (le : α → α → Bool)
    (htrans : ∀ a b c, le a b = true → le b c = true → le a c = true)
    (htotal : ∀ a b, (le a b || le b a) = true) (x : α) (l : List α)
    (hl : l.Pairwise (fun a b => le a b = true)) :
    (insertSorted le x l).Pairwise (fun a b => le a b = true) := by
  induction l with
  | nil => exact List.pairwise_singleton _ _
  | cons y ys ih =>
    rcases List.pairwise_cons.mp hl with ⟨hy, hys⟩
    unfold insertSorted
    split
    · rename_i hxy
      refine List.pairwise_cons.mpr ⟨?_, hl⟩
      intro z hz
      rcases List.mem_cons.mp hz with hzy | hz2
      · exact hzy ▸ hxy
      · exact htrans x y z hxy (hy z hz2)
    · rename_i hxy
      have hyx : le y x = true := by
        rcases Bool.or_eq_true_iff.mp (htotal x y) with h | h
        · exact absurd h hxy
        · exact h
      refine List.pairwise_cons.mpr ⟨?_, ih hys⟩
      intro z hz
      rcases List.mem_cons.mp
          ((insertSorted_perm le x ys).mem_iff.mp hz) with hzx | hz2
      · exact hzx ▸ hyx
      · exact hy z hz2

theorem insertionSort_pairwise (le : α → α → Bool)
    (htrans : ∀ a b c, le a b = true → le b c = true → le a c = true)
    (htotal : ∀ a b, (le a b || le b a) = true) (l : List α) :
    (insertionSort le l).Pairwise (fun a b => le a b = true) := by
  induction l with
  | nil => exact List.Pairwise.nil
  | cons x xs ih => exact insertSorted_pairwise le htrans htotal x _ ih

theorem topLE_trans (asc : Bool) (a b c : Int × Nat × ℚ × String)
    (hab : topLE asc a b = true) (hbc : topLE asc b c = true) :
    topLE asc a c = true := by
  cases asc with
  | true =>
    unfold topLE at hab hbc ⊢
    rw [if_pos rfl] at hab hbc ⊢
    exact decide_eq_true
      (le_trans (of_decide_eq_true hab) (of_decide_eq_true hbc))
  | false =>
    unfold topLE at hab hbc ⊢
    rw [if_neg (by exact Bool.false_ne_true)] at hab hbc ⊢
    exact decide_eq_true
      (le_trans (of_decide_eq_true hbc) (of_decide_eq_true hab))

theorem topLE_total (asc : Bool) (a b : Int × Nat × ℚ × String) :
    (topLE asc a b || topLE asc b a) = true := by
  cases asc with
  | true =>
    unfold topLE
    rw [if_pos rfl, if_pos rfl]
    rcases le_total a.2.2.1 b.2.2.1 with h | h
    · rw [decide_eq_true h]; rfl
    · rw [decide_eq_true h, Bool.or_true]
  | false =>
    unfold topLE
    rw [if_neg (by exact Bool.false_ne_true),
        if_neg (by exact Bool.false_ne_true)]
    rcases le_total b.2.2.1 a.2.2.1 with h | h
    · rw [decide_eq_true h]; rfl
    · rw [decide_eq_true h, Bool.or_true]

theorem map_fst_topRows (db : DB) (chat : Int) (l : List Int) :
    (l.map (topRowFor db chat)).map (fun e => e.1) = l := by
  induction l with
  | nil => rfl
  | cons a xs ih => exact congrArg (List.cons a) ih

theorem topRow_avg_div (db : DB) (chat t : Int) :
    (topRowFor db chat t).2.2.1
      = (((db.pings.filter (isClosedIn chat)).filter
          (·.target_user_id == t)).map
            (fun p => (closedDuration p : ℚ))).sum
        / ((((db.pings.filter (isClosedIn chat)).filter
            (·.target_user_id == t)).length : ℚ)) := by
  show (mkRat (((db.pings.filter (isClosedIn chat)).filter
      (·.target_user_id == t)).map closedDuration).sum
      (((db.pings.filter (isClosedIn chat)).filter
        (·.target_user_id == t)).length) : ℚ) = _
  rw [Rat.mkRat_eq_div]
  rw [Int.cast_list_sum, List.map_map]
  rfl

/-- C6.  `rankedAverages` contract of `get_top`: every returned entry
belongs to a target with at least one closed obligation in the chat, and
carries exactly the sample count and the exact arithmetic mean of
`close_ts - ping_ts` over that target's closed obligations; the returned
targets are pairwise distinct; the list has at most `limit` entries;
whenever the number of targets with closed obligations fits within
`limit`, every such target appears; the entries are ordered by average —
ascending for `"ASC"` (fastest), descending for `"DESC"` (slowest); and
truncation keeps the extremal averages: any target with closed
obligations that is left out has an average no smaller (for `"ASC"`) or
no larger (for `"DESC"`) than every returned entry's average. -/
theorem rankedAverages_contract (db : DB) (chat : Int) (lim : Nat)
    (asc : Bool) :
    (∀ e ∈ get_top db chat lim asc,
      (∃ p, p ∈ db.pings ∧ isClosedIn chat p = true ∧
        p.target_user_id = e.1) ∧
      e.2.1 = ((db.pings.filter (isClosedIn chat)).filter
        (·.target_user_id == e.1)).length ∧
      e.2.2.1 = (((db.pings.filter (isClosedIn chat)).filter
        (·.target_user_id == e.1)).map
          (fun p => (closedDuration p : ℚ))).sum
        / ((((db.pings.filter (isClosedIn chat)).filter
          (·.target_user_id == e.1)).length : ℚ))) ∧
    ((get_top db chat lim asc).map (·.1)).Nodup ∧
    (get_top db chat lim asc).length ≤ lim ∧
    (∀ t : Int,
      (∃ p, p ∈ db.pings ∧ isClosedIn chat p = true ∧
        p.target_user_id = t) →
      ((db.pings.filter (isClosedIn chat)).map
        (·.target_user_id)).dedup.length ≤ lim →
      t ∈ (get_top db chat lim asc).map (·.1)) ∧
    (asc = true →
      (get_top db chat lim asc).Pairwise (fun a b => a.2.2.1 ≤ b.2.2.1)) ∧
    (asc = false →
      (get_top db chat lim asc).Pairwise (fun a b => b.2.2.1 ≤ a.2.2.1)) ∧
    (asc = true → ∀ t : Int,
      (∃ p, p ∈ db.pings ∧ isClosedIn chat p = true ∧
        p.target_user_id = t) →
      ¬ t ∈ (get_top db chat lim asc).map (·.1) →
      ∀ e ∈ get_top db chat lim asc,
        e.2.2.1 ≤ (((db.pings.filter (isClosedIn chat)).filter
          (·.target_user_id == t)).map
            (fun p => (closedDuration p : ℚ))).sum
          / ((((db.pings.filter (isClosedIn chat)).filter
            (·.target_user_id == t)).length : ℚ))) ∧
    (asc = false → ∀ t : Int,
      (∃ p, p ∈ db.pings ∧ isClosedIn chat p = true ∧
        p.target_user_id = t) →
      ¬ t ∈ (get_top db chat lim asc).map (·.1) →
      ∀ e ∈ get_top db chat lim asc,
        (((db.pings.filter (isClosedIn chat)).filter
          (·.target_user_id == t)).map
            (fun p => (closedDuration p : ℚ))).sum
          / ((((db.pings.filter (isClosedIn chat)).filter
            (·.target_user_id == t)).length : ℚ)) ≤ e.2.2.1) := by
  have hrows : get_top db chat lim asc
      = (insertionSort (topLE asc)
          ((((db.pings.filter (isClosedIn chat)).map
            (·.target_user_id)).dedup.map (topRowFor db chat)))).take lim :=
    rfl
  refine ⟨?_, ?_, ?_, ?_, ?_, ?_, ?_, ?_⟩
  · intro e he
    rw [hrows] at he
    have he2 := List.mem_of_mem_take he
    have he3 := (insertionSort_perm (topLE asc) _).mem_iff.mp he2
    rcases List.mem_map.mp he3 with ⟨t, ht, hte⟩
    have htc : t ∈ (db.pings.filter (isClosedIn chat)).map
        (·.target_user_id) := List.mem_dedup.mp ht
    rcases List.mem_map.mp htc with ⟨p, hp, hpt⟩
    subst hte
    exact ⟨⟨p, (List.mem_filter.mp hp).1, (List.mem_filter.mp hp).2, hpt⟩,
      rfl, topRow_avg_div db chat t⟩
  · rw [hrows]
    have hsub : List.Sublist
        (((insertionSort (topLE asc)
          ((((db.pings.filter (isClosedIn chat)).map
            (·.target_user_id)).dedup.map
              (topRowFor db chat)))).take lim).map (fun e => e.1))
        ((insertionSort (topLE asc)
          ((((db.pings.filter (isClosedIn chat)).map
            (·.target_user_id)).dedup.map
              (topRowFor db chat)))).map (fun e => e.1)) :=
      (List.take_sublist _ _).map _
    refine hsub.nodup ?_
    have hperm := insertionSort_perm (topLE asc)
      ((((db.pings.filter (isClosedIn chat)).map
        (·.target_user_id)).dedup.map (topRowFor db chat)))
    rw [(hperm.map (fun e => e.1)).nodup_iff]
    rw [map_fst_topRows]
    exact List.nodup_dedup _
  · rw [hrows]
    exact List.length_take_le _ _
  · intro t ⟨p, hp, hclosed, hpt⟩ hlen
    have hpc : p ∈ db.pings.filter (isClosedIn chat) :=
      List.mem_filter.mpr ⟨hp, hclosed⟩
    have ht : t ∈ ((db.pings.filter (isClosedIn chat)).map
        (·.target_user_id)).dedup :=
      List.mem_dedup.mpr (List.mem_map.mpr ⟨p, hpc, hpt⟩)
    rw [hrows]
    have hlensorted : (insertionSort (topLE asc)
        ((((db.pings.filter (isClosedIn chat)).map
          (·.target_user_id)).dedup.map
            (topRowFor db chat)))).length ≤ lim := by
      rw [(insertionSort_perm _ _).length_eq, List.length_map]
      exact hlen
    rw [List.take_of_length_le hlensorted]
    refine List.mem_map.mpr ⟨topRowFor db chat t, ?_, rfl⟩
    exact (insertionSort_perm _ _).mem_iff.mpr (List.mem_map_of_mem _ ht)
  · intro hasc
    subst hasc
    rw [hrows]
    have hsorted := insertionSort_pairwise (topLE true)
      (fun a b c hab hbc => topLE_trans true a b c hab hbc)
      (fun a b => topLE_total true a b)
      ((((db.pings.filter (isClosedIn chat)).map
        (·.target_user_id)).dedup.map (topRowFor db chat)))
    refine List.Pairwise.sublist (List.take_sublist _ _) ?_
    refine hsorted.imp ?_
    intro a b hab
    have h2 : topLE true a b = true := hab
    unfold topLE at h2
    rw [if_pos rfl] at h2
    exact of_decide_eq_true h2
  · intro hasc
    subst hasc
    rw [hrows]
    have hsorted := insertionSort_pairwise (topLE false)
      (fun a b c hab hbc => topLE_trans false a b c hab hbc)
      (fun a b => topLE_total false a b)
      ((((db.pings.filter (isClosedIn chat)).map
        (·.target_user_id)).dedup.map (topRowFor db chat)))
    refine List.Pairwise.sublist (List.take_sublist _ _) ?_
    refine hsorted.imp ?_
    intro a b hab
    have h2 : topLE false a b = true := hab
    unfold topLE at h2
    rw [if_neg (by exact Bool.false_ne_true)] at h2
    exact of_decide_eq_true h2
  · intro hasc t hex hnot e he
    subst hasc
    obtain ⟨p, hp, hcl, hpt⟩ := hex
    have hpc : p ∈ db.pings.filter (isClosedIn chat) :=
      List.mem_filter.mpr ⟨hp, hcl⟩
    have ht : t ∈ ((db.pings.filter (isClosedIn chat)).map
        (·.target_user_id)).dedup :=
      List.mem_dedup.mpr (List.mem_map.mpr ⟨p, hpc, hpt⟩)
    have hSmem : topRowFor db chat t ∈ insertionSort (topLE true)
        ((((db.pings.filter (isClosedIn chat)).map
          (·.target_user_id)).dedup.map (topRowFor db chat))) :=
      (insertionSort_perm _ _).mem_iff.mpr (List.mem_map_of_mem _ ht)
    have hsplit := List.take_append_drop lim (insertionSort (topLE true)
      ((((db.pings.filter (isClosedIn chat)).map
        (·.target_user_id)).dedup.map (topRowFor db chat))))
    have hpair := insertionSort_pairwise (topLE true)
      (fun a b c hab hbc => topLE_trans true a b c hab hbc)
      (fun a b => topLE_total true a b)
      ((((db.pings.filter (isClosedIn chat)).map
        (·.target_user_id)).dedup.map (topRowFor db chat)))
    rw [← hsplit] at hpair hSmem
    have hcross := (List.pairwise_append.mp hpair).2.2
    have hnotin : ¬ topRowFor db chat t ∈ (insertionSort (topLE true)
        ((((db.pings.filter (isClosedIn chat)).map
          (·.target_user_id)).dedup.map
            (topRowFor db chat)))).take lim := by
      intro hmem
      exact hnot (List.mem_map_of_mem (fun e => e.1) hmem)
    have hdropmem : topRowFor db chat t ∈ (insertionSort (topLE true)
        ((((db.pings.filter (isClosedIn chat)).map
          (·.target_user_id)).dedup.map
            (topRowFor db chat)))).drop lim := by
      rcases List.mem_append.mp hSmem with h | h
      · exact absurd h hnotin
      · exact h
    have hle := hcross e he (topRowFor db chat t) hdropmem
    have hled : e.2.2.1 ≤ (topRowFor db chat t).2.2.1 := by
      unfold topLE at hle
      rw [if_pos rfl] at hle
      exact of_decide_eq_true hle
    rw [← topRow_avg_div db chat t]
    exact hled
  · intro hasc t hex hnot e he
    subst hasc
    obtain ⟨p, hp, hcl, hpt⟩ := hex
    have hpc : p ∈ db.pings.filter (isClosedIn chat) :=
      List.mem_filter.mpr ⟨hp, hcl⟩
    have ht : t ∈ ((db.pings.filter (isClosedIn chat)).map
        (·.target_user_id)).dedup :=
      List.mem_dedup.mpr (List.mem_map.mpr ⟨p, hpc, hpt⟩)
    have hSmem : topRowFor db chat t ∈ insertionSort (topLE false)
        ((((db.pings.filter (isClosedIn chat)).map
          (·.target_user_id)).dedup.map (topRowFor db chat))) :=
      (insertionSort_perm _ _).mem_iff.mpr (List.mem_map_of_mem _ ht)
    have hsplit := List.take_append_drop lim (insertionSort (topLE false)
      ((((db.pings.filter (isClosedIn chat)).map
        (·.target_user_id)).dedup.map (topRowFor db chat))))
    have hpair := insertionSort_pairwise (topLE false)
      (fun a b c hab hbc => topLE_trans false a b c hab hbc)
      (fun a b => topLE_total false a b)
      ((((db.pings.filter (isClosedIn chat)).map
        (·.target_user_id)).dedup.map (topRowFor db chat)))
    rw [← hsplit] at hpair hSmem
    have hcross := (List.pairwise_append.mp hpair).2.2
    have hnotin : ¬ topRowFor db chat t ∈ (insertionSort (topLE false)
        ((((db.pings.filter (isClosedIn chat)).map
          (·.target_user_id)).dedup.map
            (topRowFor db chat)))).take lim := by
      intro hmem
      exact hnot (List.mem_map_of_mem (fun e => e.1) hmem)
    have hdropmem : topRowFor db chat t ∈ (insertionSort (topLE false)
        ((((db.pings.filter (isClosedIn chat)).map
          (·.target_user_id)).dedup.map
            (topRowFor db chat)))).drop lim := by
      rcases List.mem_append.mp hSmem with h | h
      · exact absurd h hnotin
      · exact h
    have hle := hcross e he (topRowFor db chat t) hdropmem
    have hled : (topRowFor db chat t).2.2.1 ≤ e.2.2.1 := by
      unfold topLE at hle
      rw [if_neg (by exact Bool.false_ne_true)] at hle
      exact of_decide_eq_true hle
    rw [← topRow_avg_div db chat t]
    exact hled

/-- C6, witness: in `dbTop` (three targets 5, 6, 7 with averages 10, 20,
30) with `limit = 2` and ascending order, truncation takes effect: the
result is exactly the two fastest targets 5 and 6 in that order, with at
most two entries, ascending by average, and the excluded target 7 has an
average no smaller than that of the returned entry for target 5. -/
theorem rankedAverages_contract_witness :
    (get_top dbTop 1 2 true).map (fun e => e.1) = [5, 6] ∧
    (get_top dbTop 1 2 true).length ≤ 2 ∧
    (get_top dbTop 1 2 true).Pairwise (fun a b => a.2.2.1 ≤ b.2.2.1) ∧
    (((5 : Int), (1 : Nat), (10 : ℚ), "user_5") :
        Int × Nat × ℚ × String).2.2.1
      ≤ (((dbTop.pings.filter (isClosedIn 1)).filter
          (·.target_user_id == (7 : Int))).map
            (fun p => (closedDuration p : ℚ))).sum
        / ((((dbTop.pings.filter (isClosedIn 1)).filter
          (·.target_user_id == (7 : Int))).length : ℚ)) :=
  ⟨by decide,
   (rankedAverages_contract dbTop 1 2 true).2.2.1,
   (rankedAverages_contract dbTop 1 2 true).2.2.2.2.1 rfl,
   (rankedAverages_contract dbTop 1 2 true).2.2.2.2.2.2.1 rfl 7
     ⟨{ id := 3, chat_id := 1, source_message_id := 14, source_user_id := 2,
        target_user_id := 7, ping_reason := "mention", ping_ts := 100,
        close_ts := some 130, close_type := some "message",
        close_message_id := some 15, reaction_emoji := none },
      by decide, by decide, by decide⟩
     (by decide)
     ((5 : Int), (1 : Nat), (10 : ℚ), "user_5") (by decide)⟩

end Pingmeter
